import Mathlib

/-!
Verification development for the company enrichment engine of the
InernTrack repository (file src/company_enricher.py).

The Python source is shallowly embedded: pure functions (email
extraction, merging, classification) become executable Lean functions;
the network and the HTML/JSON parsing done by third-party libraries
(requests, BeautifulSoup, json) are abstracted as oracle functions
bundled in a World structure, and the orchestrator and adapters are
translated from the source against those oracles.  Machine details that
cannot matter to the verified claims (exact HTTP headers, timeouts,
logging) are dropped.  The regular expressions of the source are
translated into explicit scanners that follow the semantics of
Python re.search and re.findall (leftmost match, greedy quantifiers
with backtracking where it can change the outcome) over ASCII text.
-/

set_option maxHeartbeats 1000000

namespace InternTrack

/-! ### Character classes used by the regular expressions (ASCII model) -/

def isDigitC (c : Char) : Bool := '0' ≤ c && c ≤ '9'

def isLowerC (c : Char) : Bool := 'a' ≤ c && c ≤ 'z'

def isUpperC (c : Char) : Bool := 'A' ≤ c && c ≤ 'Z'

def isLetterC (c : Char) : Bool := isLowerC c || isUpperC c

def isAlnumC (c : Char) : Bool := isLetterC c || isDigitC c

/-- Python regex word character (ASCII fragment of \w). -/
def isWordC (c : Char) : Bool := isAlnumC c || c = '_'

/-- Python whitespace (ASCII fragment of \s). -/
def isSpaceC (c : Char) : Bool :=
  c = ' ' || c = '\t' || c = '\n' || c = '\r' || c = '\x0b' || c = '\x0c'

/-- Characters allowed in the local part of EMAIL_PATTERN: [a-z0-9._%+-]. -/
def isLocalC (c : Char) : Bool :=
  isAlnumC c || c = '.' || c = '_' || c = '%' || c = '+' || c = '-'

/-- Characters allowed inside a domain label: [a-z0-9-]. -/
def isLabelC (c : Char) : Bool := isAlnumC c || c = '-'

/-! ### Generic string helpers modelling Python str operations -/

/-- Length of the maximal prefix whose characters satisfy p. -/
def runLength (p : Char → Bool) : List Char → Nat
  | [] => 0
  | c :: cs => if p c then runLength p cs + 1 else 0

def startsWithL : List Char → List Char → Bool
  | [], _ => true
  | _ :: _, [] => false
  | p :: ps, c :: cs => p == c && startsWithL ps cs

/-- Case-insensitive prefix test (both sides lowered, ASCII). -/
def startsWithCIL : List Char → List Char → Bool
  | [], _ => true
  | _ :: _, [] => false
  | p :: ps, c :: cs => p.toLower == c.toLower && startsWithCIL ps cs

def containsSubL (pat : List Char) : List Char → Bool
  | [] => startsWithL pat []
  | c :: cs => startsWithL pat (c :: cs) || containsSubL pat cs

/-- Python substring test: pat in s. -/
def containsSub (s pat : String) : Bool := containsSubL pat.data s.data

/-- Python str.lower (ASCII model). -/
def pyLower (s : String) : String := String.mk (s.data.map Char.toLower)

/-- Python str.strip (ASCII whitespace model). -/
def pyStrip (s : String) : String :=
  String.mk (((s.data.dropWhile isSpaceC).reverse.dropWhile isSpaceC).reverse)

/-- Python slicing s[:n]. -/
def strTake (s : String) (n : Nat) : String := String.mk (s.data.take n)

/-- Python slicing s[n:]. -/
def strDrop (s : String) (n : Nat) : String := String.mk (s.data.drop n)

def pyStartsWith (s pat : String) : Bool := startsWithL pat.data s.data

/-- Python str.split(sep) with a non-empty separator, fuelled for
structural recursion (the fuel is always sufficient). -/
def splitOnFuel (sep : List Char) : Nat → List Char → List Char → List (List Char)
  | _, [], cur => [cur.reverse]
  | 0, s, cur => [cur.reverse ++ s]
  | fuel + 1, c :: cs, cur =>
    if startsWithL sep (c :: cs) then
      cur.reverse :: splitOnFuel sep fuel ((c :: cs).drop sep.length) []
    else splitOnFuel sep fuel cs (c :: cur)

def pySplit (s sep : String) : List String :=
  if sep.data.isEmpty then [s]
  else (splitOnFuel sep.data s.data.length s.data []).map String.mk

/-- Python str.replace (all non-overlapping occurrences, left to
right). -/
def replaceFuel (pat rep : List Char) : Nat → List Char → List Char
  | _, [] => []
  | 0, s => s
  | fuel + 1, c :: cs =>
    if startsWithL pat (c :: cs) then
      rep ++ replaceFuel pat rep fuel ((c :: cs).drop pat.length)
    else c :: replaceFuel pat rep fuel cs

def pyReplace (s pat rep : String) : String :=
  if pat.data.isEmpty then s
  else String.mk (replaceFuel pat.data rep.data s.data.length s.data)

/-- Python sep.join. -/
def joinWithL (sep : List Char) : List (List Char) → List Char
  | [] => []
  | [x] => x
  | x :: y :: rest => x ++ sep ++ joinWithL sep (y :: rest)

def pyJoin (sep : String) (l : List String) : String :=
  String.mk (joinWithL sep.data (l.map String.data))

/-- Code-point comparison of strings, as Python compares str values:
lexicographic on the code points. -/
def listLeB : List Char → List Char → Bool
  | [], _ => true
  | _ :: _, [] => false
  | a :: as, b :: bs =>
    if a.toNat < b.toNat then true
    else if b.toNat < a.toNat then false
    else listLeB as bs

def strLeB (a b : String) : Bool := listLeB a.data b.data

/-- Python sorted() on strings (code-point lexicographic order). -/
def pySorted (l : List String) : List String :=
  List.insertionSort (fun a b => strLeB a b = true) l

/-! ### EMAIL_PATTERN

The source regex (re.IGNORECASE | re.VERBOSE):

  \b (?!.*\.\.) [a-z0-9] [a-z0-9._%+-]{0,63} @
  (?:[a-z0-9](?:[a-z0-9-]{0,61}[a-z0-9])?\.)+ [a-z]{2,} \b

Every quantifier below is resolved deterministically because each
bounded repetition is over a character class that excludes the
character that must follow it, so Python backtracking cannot produce a
different outcome; the one place where backtracking matters (the number
of domain labels consumed by the + group) is implemented by trying the
greedy alternative first. -/

/-- The negative lookahead (?!.*\.\.): with re-dot not crossing a
newline, it fails exactly when ".." occurs before the next newline. -/
def hasDotDotNL : List Char → Bool
  | '.' :: '.' :: _ => true
  | '\n' :: _ => false
  | _ :: cs => hasDotDotNL cs
  | [] => false

/-- One domain label followed by a literal dot; returns the remainder. -/
def parseLabelDot (cs : List Char) : Option (List Char) :=
  let n := runLength isLabelC cs
  if n = 0 then none
  else if isAlnumC (cs.headD ' ') && isAlnumC ((cs.take n).getLastD ' ') && n ≤ 63 then
    match cs.drop n with
    | '.' :: rest => some rest
    | _ => none
  else none

/-- Domain tail: one or more label-dot groups then the TLD
[a-z]{2,}\b, greedy on the label count; returns the remainder after
the whole domain. -/
def parseDomainEnd : Nat → List Char → Option (List Char)
  | 0, _ => none
  | fuel + 1, cs =>
    match parseLabelDot cs with
    | none => none
    | some rest =>
      match parseDomainEnd fuel rest with
      | some r => some r
      | none =>
        let n := runLength isLetterC rest
        if 2 ≤ n && !isWordC ((rest.drop n).headD ' ') then some (rest.drop n)
        else none

/-- Attempt the full EMAIL_PATTERN at the current position; prev is the
character before the position (for the leading \b). Returns the match
length. -/
def matchEmailAt (prev : Option Char) (cs : List Char) : Option Nat :=
  match cs with
  | [] => none
  | c :: rest =>
    if (match prev with | some p => isWordC p | none => false) then none
    else if !isAlnumC c then none
    else if hasDotDotNL cs then none
    else
      let n := runLength isLocalC rest
      if n ≤ 63 then
        match rest.drop n with
        | '@' :: dom =>
          match parseDomainEnd (dom.length + 1) dom with
          | some remAfter => some (cs.length - remAfter.length)
          | none => none
        | _ => none
      else none

/-- re.findall scan: non-overlapping leftmost matches. -/
def emailScan : Nat → Option Char → List Char → List String
  | 0, _, _ => []
  | _ + 1, _, [] => []
  | fuel + 1, prev, c :: rest =>
    match matchEmailAt prev (c :: rest) with
    | some len =>
      let len1 := max len 1
      String.mk ((c :: rest).take len1) ::
        emailScan fuel ((c :: rest).take len1).getLast? ((c :: rest).drop len1)
    | none => emailScan fuel (some c) rest

/-- EMAIL_PATTERN.findall(text). -/
def emailFindAll (s : String) : List String := emailScan s.data.length none s.data

/-! ### extract_emails -/

def EXCLUDED_EMAIL_DOMAINS : List String :=
  ["example.com", "example.org", "test.com", "localhost",
   "email.com", "mail.com", "yourcompany.com", "company.com",
   "domain.com", "website.com", "sentry.io", "wixpress.com",
   "schema.org", "w3.org", "googleapis.com", "gstatic.com"]

/-- The fake pattern r-your.*@: "your", any characters on the same
line, then an at sign. -/
def yourAtL : List Char → Bool
  | [] => false
  | c :: cs =>
    (startsWithL ['y', 'o', 'u', 'r'] (c :: cs)
      && (((c :: cs).drop 4).takeWhile (fun x => x != '\n')).contains '@')
    || yourAtL cs

/-- The purely literal FAKE_EMAIL_PATTERNS entries. -/
def FAKE_EMAIL_LITERALS : List String :=
  ["email@", "name@", "info@example", "sample@", "test@",
   "noreply@", "no-reply@", "donotreply@", "mailer-daemon@", "postmaster@"]

def isFakeEmail (e : String) : Bool :=
  yourAtL e.data || FAKE_EMAIL_LITERALS.any (fun p => containsSub e p)

/-- The body of the validation loop of extract_emails for one raw
regex match: lower + strip, split the domain, apply the three filters. -/
def validateEmail (m : String) : Option String :=
  let email := pyStrip (pyLower m)
  match (pySplit email "@").get? 1 with
  | none => none
  | some domain =>
    if EXCLUDED_EMAIL_DOMAINS.contains domain then none
    else if isFakeEmail email then none
    else if email.length > 100 then none
    else some email

/-- extract_emails(text): find matches, validate, collect into a set,
return sorted. -/
def extract_emails (text : String) : List String :=
  if text.data.isEmpty then []
  else pySorted (((emailFindAll text).filterMap validateEmail).dedup)

/-! ### extract_emails_with_context -/

structure ContactInfo where
  email : String
  ctype : String
  context : String
  priority : Option String := none
  deriving DecidableEq, Repr

/-- Ascending list of the positions where pat occurs (case-insensitive)
in the text. -/
def occListCI (pat : List Char) : List Char → List Nat
  | [] => if pat.isEmpty then [0] else []
  | c :: cs =>
    (if startsWithCIL pat (c :: cs) then [0] else [])
      ++ (occListCI pat cs).map (· + 1)

/-- The context regex .{0,100} email .{0,100} (IGNORECASE, DOTALL),
searched over the text: leftmost start, greedy prefix and suffix,
then str.strip of group(0). -/
def contextWindow (text email : String) : String :=
  let t := text.data
  let occs := occListCI email.data t
  match occs.head? with
  | none => ""
  | some p =>
    let i := p - min p 100
    let q := (occs.filter (fun o => o ≤ i + 100)).getLastD p
    let stop := min t.length (q + email.data.length + 100)
    pyStrip (String.mk ((t.take stop).drop i))

/-- Scan for the regex a\s*b (two literals separated by optional
whitespace). -/
def litWsLitAt (a b : List Char) (s : List Char) : Bool :=
  startsWithL a s && startsWithL b ((s.drop a.length).dropWhile isSpaceC)

def litWsLitScan (a b : List Char) : List Char → Bool
  | [] => litWsLitAt a b []
  | c :: cs => litWsLitAt a b (c :: cs) || litWsLitScan a b cs

/-- Type pattern for hr: (hr|human\s*resource|people\s*ops). -/
def hrPat (s : String) : Bool :=
  containsSub s "hr" || litWsLitScan "human".data "resource".data s.data
    || litWsLitScan "people".data "ops".data s.data

/-- Type pattern for recruiter: (recruit|talent|hiring|career). -/
def recruiterPat (s : String) : Bool :=
  containsSub s "recruit" || containsSub s "talent"
    || containsSub s "hiring" || containsSub s "career"

/-- Type pattern for support: (support|help|customer). -/
def supportPat (s : String) : Bool :=
  containsSub s "support" || containsSub s "help" || containsSub s "customer"

/-- Type pattern for sales: (sales|business|partner). -/
def salesPat (s : String) : Bool :=
  containsSub s "sales" || containsSub s "business" || containsSub s "partner"

/-- Type pattern for general: (info|contact|hello|general). -/
def generalPat (s : String) : Bool :=
  containsSub s "info" || containsSub s "contact"
    || containsSub s "hello" || containsSub s "general"

/-- The ordered first-match-wins classification over the email and its
context (both lowered, as in the source). -/
def classifyEmailType (email context : String) : String :=
  let e := pyLower email
  let c := pyLower context
  if hrPat e || hrPat c then "hr"
  else if recruiterPat e || recruiterPat c then "recruiter"
  else if supportPat e || supportPat c then "support"
  else if salesPat e || salesPat c then "sales"
  else if generalPat e || generalPat c then "general"
  else "unknown"

/-- extract_emails_with_context(text). -/
def extract_emails_with_context (text : String) : List ContactInfo :=
  if text.data.isEmpty then []
  else
    (extract_emails text).map (fun email =>
      let context := contextWindow text email
      { email := email
        ctype := classifyEmailType email context
        context := strTake context 200 })

/-! ### EnrichmentResult and merge

The enriched_at timestamp field of the Python dataclass is wall-clock
metadata that no merge or persistence decision reads, so it is omitted
from the embedded value type. -/

/-- Python truthiness of an optional string: None and "" are falsy. -/
def truthyO : Option String → Bool
  | none => false
  | some s => !s.data.isEmpty

/-- Python `a or b` on optional strings. -/
def pyOrS (a b : Option String) : Option String := if truthyO a then a else b

def getS (o : Option String) : String := o.getD ""

structure EnrichmentResult where
  website : Option String := none
  description : Option String := none
  linkedin_url : Option String := none
  glassdoor_url : Option String := none
  twitter_url : Option String := none
  facebook_url : Option String := none
  emails : List String := []
  contacts : List ContactInfo := []
  phone : Option String := none
  careers_url : Option String := none
  about_url : Option String := none
  contact_url : Option String := none
  industry : Option String := none
  founded : Option String := none
  headquarters : Option String := none
  num_employees : Option String := none
  sources : List String := []
  deriving DecidableEq, Repr

/-- One scalar field of merge: keep self unless self is falsy and the
other is truthy. -/
def mergeField (a b : Option String) : Option String :=
  if !truthyO a && truthyO b then b else a

/-- The email-list merge loop: append the elements of the second list
that are not already present (the membership set grows as we append). -/
def addNewStrings (acc : List String) : List String → List String
  | [] => acc
  | e :: rest =>
    if acc.contains e then addNewStrings acc rest
    else addNewStrings (acc ++ [e]) rest

/-- The contact-list merge loop, keyed by the email field. -/
def addNewContacts (acc : List ContactInfo) : List ContactInfo → List ContactInfo
  | [] => acc
  | c :: rest =>
    if (acc.map ContactInfo.email).contains c.email then addNewContacts acc rest
    else addNewContacts (acc ++ [c]) rest

/-- EnrichmentResult.merge (the source mutates self in place and
returns it; embedded as a pure function). -/
def merge (a b : EnrichmentResult) : EnrichmentResult :=
  { website := mergeField a.website b.website
    description := mergeField a.description b.description
    linkedin_url := mergeField a.linkedin_url b.linkedin_url
    glassdoor_url := mergeField a.glassdoor_url b.glassdoor_url
    twitter_url := mergeField a.twitter_url b.twitter_url
    facebook_url := mergeField a.facebook_url b.facebook_url
    phone := mergeField a.phone b.phone
    careers_url := mergeField a.careers_url b.careers_url
    about_url := mergeField a.about_url b.about_url
    contact_url := mergeField a.contact_url b.contact_url
    industry := mergeField a.industry b.industry
    founded := mergeField a.founded b.founded
    headquarters := mergeField a.headquarters b.headquarters
    num_employees := mergeField a.num_employees b.num_employees
    emails := addNewStrings a.emails b.emails
    contacts := addNewContacts a.contacts b.contacts
    sources := addNewStrings a.sources b.sources }

/-- CompanyEnricher._is_target_complete. -/
def is_target_complete (r : EnrichmentResult) : Bool :=
  truthyO r.description && truthyO r.linkedin_url && truthyO r.website
    && decide (r.contacts.length > 0)

/-! ### The network and parsing World

requests.get and the BeautifulSoup / json parsing performed by
third-party libraries are abstracted as oracle functions: one run of
the program corresponds to one World value.  fetch returns none when
requests.get raises; otherwise a status code and the body text.  The
soup-query oracles return the data the source reads off the parsed
document (link hrefs, element texts, infobox rows); all theorems about
the adapters and the orchestrator are quantified over every World. -/

structure Resp where
  status : Nat
  body : String
  deriving DecidableEq, Repr

/-- The dictionary produced by extract_social_links. -/
structure SocialLinks where
  linkedin : Option String := none
  glassdoor : Option String := none
  twitter : Option String := none
  facebook : Option String := none
  instagram : Option String := none
  github : Option String := none
  deriving DecidableEq, Repr

/-- One infobox row that has both a th header and a td cell: the
stripped header text, the stripped data text, and the href of the
first anchor in the cell if any. -/
structure InfoRow where
  header : String
  dataText : String
  firstHref : Option String := none
  deriving DecidableEq, Repr

structure World where
  fetch : String → Option Resp
  soupTitle : String → Option String := fun _ => none
  googleHrefs : String → List String := fun _ => []
  ddgLinks : String → List String := fun _ => []
  ddgSnippetLinkTexts : String → List String := fun _ => []
  ddgSnippetTexts : String → List String := fun _ => []
  googleDescTexts : String → List String := fun _ => []
  socialLinks : String → SocialLinks := fun _ => {}
  pageDescription : String → Option String := fun _ => none
  phoneScan : String → Option String := fun _ => none
  wikiSearchTitles : String → Option (List String) := fun _ => none
  wikiPages : String → Option (List (String × String)) := fun _ => none
  wikiInfobox : String → Option (List InfoRow) := fun _ => none

/-- fetch_page: requests.get + raise_for_status, None on any failure. -/
def fetch_page (w : World) (url : String) : Option String :=
  match w.fetch url with
  | none => none
  | some r => if r.status < 400 then some r.body else none

/-- normalize_website_url. -/
def normalize_website_url (url : String) : Option String :=
  if url.data.isEmpty then none
  else
    let u := pyStrip url
    let u := if pyStartsWith u "http://" || pyStartsWith u "https://" then u else "https://" ++ u
    let scheme := if pyStartsWith u "https://" then "https" else "http"
    let after := if pyStartsWith u "https://" then strDrop u 8 else strDrop u 7
    let netloc := String.mk (after.data.takeWhile (fun c => c != '/' && c != '?' && c != '#'))
    if netloc.data.isEmpty then none else some (scheme ++ "://" ++ netloc)

/-- urllib quote_plus (ASCII byte model, used only to build the query
URLs handed to the fetch oracle). -/
def hexDigitU (n : Nat) : Char := if n < 10 then Char.ofNat (48 + n) else Char.ofNat (55 + n)

def quotePlusChar (c : Char) : List Char :=
  if isAlnumC c || c = '-' || c = '_' || c = '.' || c = '~' then [c]
  else if c = ' ' then ['+']
  else ['%', hexDigitU (c.toNat / 16 % 16), hexDigitU (c.toNat % 16)]

def quotePlus (s : String) : String :=
  String.mk (s.data.foldr (fun c acc => quotePlusChar c ++ acc) [])

/-! ### find_about_page / find_contact_page / find_careers_page -/

def ABOUT_PATHS : List String :=
  ["/about", "/about-us", "/about-us/", "/aboutus", "/company", "/company/",
   "/our-company", "/who-we-are", "/our-story", "/our-mission", "/en/about", "/en/company"]

def CONTACT_PATHS : List String :=
  ["/contact", "/contact-us", "/contact-us/", "/contactus", "/get-in-touch",
   "/reach-us", "/connect", "/en/contact", "/support/contact"]

def CAREERS_PATHS : List String :=
  ["/careers", "/jobs", "/join-us", "/join", "/work-with-us", "/opportunities",
   "/hiring", "/en/careers", "/company/careers"]

/-- Probe a candidate path list: first page over the length threshold
wins (urljoin of a normalized base and an absolute path is
concatenation). -/
def probePaths (w : World) (base : String) (paths : List String) (minLen : Nat) : Option String :=
  paths.findSome? (fun p =>
    match fetch_page w (base ++ p) with
    | some h => if h.length > minLen then some (base ++ p) else none
    | none => none)

def find_about_page (w : World) (base : String) : Option String :=
  probePaths w base ABOUT_PATHS 1000

def find_contact_page (w : World) (base : String) : Option String :=
  probePaths w base CONTACT_PATHS 500

def find_careers_page (w : World) (base : String) : Option String :=
  probePaths w base CAREERS_PATHS 500

/-! ### Website resolution -/

/-- re.search of a literal (case-insensitive) followed by a mandatory
greedy character-class run, returning group(1); scans left to right as
the regex engine does. -/
def captureAfterLitL (lit : List Char) (cls : Char → Bool) : List Char → Option (List Char)
  | [] => none
  | c :: cs =>
    match
      (if startsWithCIL lit (c :: cs) then
        let run := ((c :: cs).drop lit.length).takeWhile cls
        if run.isEmpty then none else some run
      else none) with
    | some r => some r
    | none => captureAfterLitL lit cls cs

def captureAfterLit (s lit : String) (cls : Char → Bool) : Option String :=
  (captureAfterLitL lit.data cls s.data).map String.mk

def PARKED_INDICATORS : List String :=
  ["domain for sale", "buy this domain", "parked free",
   "godaddy", "namecheap parking", "this domain"]

/-- CompanyEnricher._verify_website. -/
def verify_website (w : World) (url companyName : String) : Bool :=
  match w.fetch url with
  | none => false
  | some resp =>
    if resp.status ≠ 200 then false
    else
      let content := pyLower resp.body
      if PARKED_INDICATORS.any (fun ind => containsSub content ind) then false
      else
        let nameLower := pyLower companyName
        if containsSub content nameLower || containsSub content (pyReplace nameLower " " "") then true
        else containsSub (pyLower ((w.soupTitle resp.body).getD "")) nameLower

def GOOGLE_SKIP_DOMAINS : List String :=
  ["google.", "youtube.", "wikipedia.", "facebook.", "twitter.", "linkedin.",
   "instagram.", "glassdoor.", "indeed.", "yelp.", "crunchbase."]

def DDG_SKIP_DOMAINS : List String :=
  ["wikipedia.", "facebook.", "twitter.", "linkedin.", "instagram.",
   "glassdoor.", "indeed.", "yelp."]

/-- CompanyEnricher._search_google_for_website.  Note the source
returns normalize_website_url(actual_url) for the first non-skipped
/url?q= link even when normalization fails. -/
def search_google_for_website (w : World) (companyName : String) : Option String :=
  let url := "https://www.google.com/search?q="
      ++ quotePlus (companyName ++ " official website") ++ "&num=5"
  match w.fetch url with
  | none => none
  | some resp =>
    if resp.status ≠ 200 then none
    else
      match (w.googleHrefs resp.body).findSome? (fun href =>
        if containsSub href "/url?q=" then
          let actual := ((pySplit ((pySplit href "/url?q=").getD 1 "") "&")).headD ""
          if GOOGLE_SKIP_DOMAINS.any (fun d => containsSub (pyLower actual) d) then none
          else some (normalize_website_url actual)
        else none) with
      | some res => res
      | none => none

/-- CompanyEnricher._search_duckduckgo_for_website. -/
def search_duckduckgo_for_website (w : World) (companyName : String) : Option String :=
  let url := "https://html.duckduckgo.com/html/?q=" ++ quotePlus (companyName ++ " official site")
  match w.fetch url with
  | none => none
  | some resp =>
    if resp.status ≠ 200 then none
    else
      match (w.ddgLinks resp.body).findSome? (fun href =>
        if !href.data.isEmpty && !DDG_SKIP_DOMAINS.any (fun d => containsSub (pyLower href) d) then
          some (normalize_website_url href)
        else none) with
      | some res => res
      | none => none

/-- re.sub removing every non-alphanumeric character of the lowered
name. -/
def cleanNameForDomain (s : String) : String :=
  String.mk ((pyLower s).data.filter isAlnumC)

def domainPatterns (clean : String) : List String :=
  ["https://" ++ clean ++ ".com", "https://www." ++ clean ++ ".com",
   "https://" ++ clean ++ ".io", "https://" ++ clean ++ ".co",
   "https://" ++ clean ++ "inc.com", "https://" ++ clean ++ "hq.com",
   "https://get" ++ clean ++ ".com"]

/-- CompanyEnricher.resolve_official_website.  When a domain guess
verifies, the source returns normalize_website_url of it immediately
without falling through to the search engines. -/
def resolve_official_website (w : World) (companyName : String) : Option String :=
  let clean := cleanNameForDomain companyName
  match (domainPatterns clean).find? (fun u => verify_website w u companyName) with
  | some u => normalize_website_url u
  | none =>
    match search_google_for_website w companyName with
    | some g => some g
    | none => search_duckduckgo_for_website w companyName

/-! ### enrich_from_website -/

/-- Homepage part: social links and contextual emails. -/
def websiteHomepage (w : World) (r : EnrichmentResult) (base : String) : EnrichmentResult :=
  match fetch_page w base with
  | none => r
  | some html =>
    let social := w.socialLinks html
    let r := if truthyO social.linkedin then {r with linkedin_url := social.linkedin} else r
    let r := if truthyO social.glassdoor then {r with glassdoor_url := social.glassdoor} else r
    let r := if truthyO social.twitter then {r with twitter_url := social.twitter} else r
    let r := if truthyO social.facebook then {r with facebook_url := social.facebook} else r
    {r with contacts := r.contacts ++ extract_emails_with_context html}

/-- About-page part: description and possibly a LinkedIn link. -/
def websiteAbout (w : World) (r : EnrichmentResult) (base : String) : EnrichmentResult :=
  match find_about_page w base with
  | none => r
  | some aurl =>
    let r := {r with about_url := some aurl}
    match fetch_page w aurl with
    | none => r
    | some ahtml =>
      let d := w.pageDescription ahtml
      let r := if truthyO d then {r with description := d} else r
      let social := w.socialLinks ahtml
      if !truthyO r.linkedin_url && truthyO social.linkedin then
        {r with linkedin_url := social.linkedin}
      else r

/-- Contact-page part: contextual emails and a phone number. -/
def websiteContact (w : World) (r : EnrichmentResult) (base : String) : EnrichmentResult :=
  match find_contact_page w base with
  | none => r
  | some curl =>
    let r := {r with contact_url := some curl}
    match fetch_page w curl with
    | none => r
    | some chtml =>
      let r := {r with contacts := r.contacts ++ extract_emails_with_context chtml}
      match w.phoneScan chtml with
      | some ph => {r with phone := some ph}
      | none => r

def websiteCareers (w : World) (r : EnrichmentResult) (base : String) : EnrichmentResult :=
  match find_careers_page w base with
  | some u => {r with careers_url := some u}
  | none => r

/-- The final contact dedup loop of enrich_from_website; seen_emails
grows in append order. -/
def dedupByEmailAux (seen : List String) : List ContactInfo → List ContactInfo
  | [] => []
  | c :: rest =>
    if seen.contains c.email then dedupByEmailAux seen rest
    else c :: dedupByEmailAux (seen ++ [c.email]) rest

/-- CompanyEnricher.enrich_from_website. -/
def enrich_from_website (w : World) (websiteUrl : String) : EnrichmentResult :=
  let r0 : EnrichmentResult := { sources := ["website"] }
  match normalize_website_url websiteUrl with
  | none => r0
  | some base =>
    let r := {r0 with website := some base}
    let r := websiteHomepage w r base
    let r := websiteAbout w r base
    let r := websiteContact w r base
    let r := websiteCareers w r base
    let uniq := dedupByEmailAux [] r.contacts
    {r with contacts := uniq, emails := uniq.map (fun c => c.email)}

/-! ### enrich_from_linkedin -/

/-- First result link containing linkedin.com/company/ whose company
slug the regex can capture. -/
def liUrlFromLinks (links : List String) : Option String :=
  links.findSome? (fun href =>
    if containsSub (pyLower href) "linkedin.com/company/" then
      (captureAfterLit href "linkedin.com/company/"
          (fun c => isAlnumC c || c = '-' || c = '_')).map
        (fun g => "https://linkedin.com/company/" ++ g)
    else none)

/-- Description from the first snippet longer than 50 characters. -/
def descFromSnippets (ts : List String) : Option String :=
  match ts.find? (fun s => s.length > 50) with
  | none => none
  | some snippet =>
    if containsSub snippet "·" then
      let part := pyStrip ((pySplit snippet "·").getLastD "")
      if part.length > 50 then some (strTake part 1000) else none
    else if snippet.length > 100 then some (strTake snippet 1000) else none

/-- One position of the employee-count regex
(\d[\d,]*)\s*(?:employees|staff|people): every quantifier is over a
class disjoint from what must follow, so greedy maximal runs are
exact. -/
def empAtPos (cs : List Char) : Option (List Char) :=
  match cs with
  | [] => none
  | c :: _ =>
    if isDigitC c then
      let run := cs.takeWhile (fun x => isDigitC x || x = ',')
      let rest := (cs.drop run.length).dropWhile isSpaceC
      if startsWithCIL "employees".data rest || startsWithCIL "staff".data rest
          || startsWithCIL "people".data rest then some run
      else none
    else none

def empScanL : List Char → Option (List Char)
  | [] => none
  | c :: cs =>
    match empAtPos (c :: cs) with
    | some run => some run
    | none => empScanL cs

def empCapture (s : String) : Option String := (empScanL s.data).map String.mk

/-- Employee count from the first snippet the regex matches. -/
def empFromSnippets (ts : List String) : Option String :=
  ts.findSome? (fun t => (empCapture t).map (fun n => pyReplace n "," ""))

/-- CompanyEnricher.enrich_from_linkedin. -/
def enrich_from_linkedin (w : World) (companyName : String) : EnrichmentResult :=
  let r0 : EnrichmentResult := { sources := ["linkedin"] }
  let url := "https://html.duckduckgo.com/html/?q="
      ++ quotePlus ("site:linkedin.com/company " ++ companyName)
  match w.fetch url with
  | none => r0
  | some resp =>
    if resp.status ≠ 200 then r0
    else
      let html := resp.body
      let r := match liUrlFromLinks (w.ddgLinks html) with
        | some u => {r0 with linkedin_url := some u}
        | none => r0
      let r := match descFromSnippets (w.ddgSnippetLinkTexts html) with
        | some d => {r with description := some d}
        | none => r
      match empFromSnippets (w.ddgSnippetTexts html) with
      | some n => {r with num_employees := some n}
      | none => r

/-! ### enrich_from_wikipedia -/

/-- extract.split from which the first three sentences are rebuilt. -/
def firstThreeSentences (extract : String) : String :=
  pyJoin ". " ((pySplit extract ". ").take 3) ++ "."

/-- Best title: first result whose lowered title contains or is
contained in the lowered company name, else the first result. -/
def wikiBestTitle (companyName : String) (titles : List String) : String :=
  match titles.find? (fun t =>
      containsSub (pyLower t) (pyLower companyName)
        || containsSub (pyLower companyName) (pyLower t)) with
  | some t => t
  | none => titles.headD ""

/-- The year regex \b(19|20)\d{2}\b at one position. -/
def yearAt (prev : Option Char) (cs : List Char) : Option (List Char) :=
  match cs with
  | a :: b :: c :: d :: rest =>
    if (match prev with | some p => !isWordC p | none => true)
        && ((a = '1' && b = '9') || (a = '2' && b = '0'))
        && isDigitC c && isDigitC d
        && !isWordC (rest.headD ' ') then some [a, b, c, d]
    else none
  | _ => none

def yearScanL : Option Char → List Char → Option (List Char)
  | _, [] => none
  | prev, c :: cs =>
    match yearAt prev (c :: cs) with
    | some y => some y
    | none => yearScanL (some c) cs

def yearCapture (s : String) : Option String := (yearScanL none s.data).map String.mk

/-- The regex [\d,]+ : the first maximal digit-or-comma run. -/
def digitCommaScanL : List Char → Option (List Char)
  | [] => none
  | c :: cs =>
    if isDigitC c || c = ',' then
      some ((c :: cs).takeWhile (fun x => isDigitC x || x = ','))
    else digitCommaScanL cs

def digitCommaCapture (s : String) : Option String := (digitCommaScanL s.data).map String.mk

/-- CompanyEnricher._parse_wikipedia_infobox, one row. -/
def infoboxRowUpdate (acc : EnrichmentResult) (row : InfoRow) : EnrichmentResult :=
  let h := pyLower row.header
  let d := row.dataText
  if containsSub h "industry" then {acc with industry := some (strTake d 200)}
  else if containsSub h "founded" || containsSub h "established" then
    match yearCapture d with
    | some y => {acc with founded := some y}
    | none => acc
  else if containsSub h "headquarters" || containsSub h "location" then
    {acc with headquarters := some (strTake d 200)}
  else if containsSub h "employee" then
    match digitCommaCapture d with
    | some m => {acc with num_employees := some (pyReplace m "," "")}
    | none => acc
  else if containsSub h "website" then
    match row.firstHref with
    | some href =>
      if pyStartsWith href "http" then {acc with website := normalize_website_url href}
      else acc
    | none => acc
  else acc

def parse_wikipedia_infobox (rows : List InfoRow) (r : EnrichmentResult) : EnrichmentResult :=
  rows.foldl infoboxRowUpdate r

/-- The loop over pages.items(): the last page (other than the missing
marker -1) whose intro extract is long enough provides the
description. -/
def wikiDescFromPages (pages : List (String × String)) (r : EnrichmentResult) :
    EnrichmentResult :=
  pages.foldl (fun acc pg =>
    if pg.1 = "-1" then acc
    else if !pg.2.data.isEmpty && pg.2.length > 100 then
      {acc with description := some (firstThreeSentences pg.2)}
    else acc) r

/-- CompanyEnricher.enrich_from_wikipedia.  A fetch exception, a
non-200 status or a json failure anywhere lands in the except branch,
which returns the result accumulated so far. -/
def enrich_from_wikipedia (w : World) (companyName : String) : EnrichmentResult :=
  let r0 : EnrichmentResult := { sources := ["wikipedia"] }
  let searchUrl := "https://en.wikipedia.org/w/api.php?action=query&list=search&srsearch="
      ++ quotePlus (companyName ++ " company") ++ "&format=json&srlimit=3"
  match w.fetch searchUrl with
  | none => r0
  | some resp =>
    if resp.status ≠ 200 then r0
    else
      match w.wikiSearchTitles resp.body with
      | none => r0
      | some titles =>
        if titles.isEmpty then r0
        else
          let bestTitle := wikiBestTitle companyName titles
          let contentUrl := "https://en.wikipedia.org/w/api.php?action=query&titles="
              ++ quotePlus bestTitle ++ "&prop=extracts|pageprops&exintro=1&explaintext=1&format=json"
          match w.fetch contentUrl with
          | none => r0
          | some resp2 =>
            if resp2.status ≠ 200 then r0
            else
              match w.wikiPages resp2.body with
              | none => r0
              | some pages =>
                let r := wikiDescFromPages pages r0
                let htmlUrl := "https://en.wikipedia.org/wiki/" ++ quotePlus bestTitle
                match w.fetch htmlUrl with
                | none => r
                | some resp3 =>
                  if resp3.status = 200 then
                    match w.wikiInfobox resp3.body with
                    | some rows => parse_wikipedia_infobox rows r
                    | none => r
                  else r

/-! ### enrich_from_google_search -/

/-- Description from the first three description-like tags: first text
over 100 characters mentioning the company. -/
def descFromGoogleTexts (companyName : String) (ts : List String) : Option String :=
  (ts.take 3).findSome? (fun t =>
    if t.length > 100 && containsSub (pyLower t) (pyLower companyName) then
      some (strTake t 1000)
    else none)

/-- CompanyEnricher.enrich_from_google_search. -/
def enrich_from_google_search (w : World) (companyName : String) : EnrichmentResult :=
  let r0 : EnrichmentResult := { sources := ["google_search"] }
  let url := "https://www.google.com/search?q=" ++ quotePlus (companyName ++ " company")
  match w.fetch url with
  | none => r0
  | some resp =>
    if resp.status ≠ 200 then r0
    else
      let text := resp.body
      let r := match captureAfterLit text "linkedin.com/company/"
          (fun c => isAlnumC c || c = '-' || c = '_') with
        | some g => {r0 with linkedin_url := some ("https://linkedin.com/company/" ++ g)}
        | none => r0
      let r := match captureAfterLit text "twitter.com/" (fun c => isAlnumC c || c = '_') with
        | some g => {r with twitter_url := some ("https://twitter.com/" ++ g)}
        | none => r
      let r := match captureAfterLit text "facebook.com/" (fun c => isAlnumC c || c = '.') with
        | some g => {r with facebook_url := some ("https://facebook.com/" ++ g)}
        | none => r
      match descFromGoogleTexts companyName (w.googleDescTexts text) with
      | some d => {r with description := some d}
      | none => r

/-! ### Storage rows and persistence -/

/-- dict(row) of the companies table: every column is present, values
may be NULL (None). -/
structure CompanyRow where
  id : Nat
  name : Option String := none
  website : Option String := none
  company_url : Option String := none
  linkedin_url : Option String := none
  description : Option String := none
  glassdoor_url : Option String := none
  industry : Option String := none
  num_employees : Option String := none
  is_enriched : Bool := false
  enriched_at : Option String := none
  updated_at : Option String := none
  deriving DecidableEq, Repr

structure ContactRow where
  id : Nat
  company_id : Nat
  name : String
  email : String
  position : String
  notes : String
  deriving DecidableEq, Repr

/-- Python str.title (ASCII model): a letter is uppercased when the
previous character is not a letter, lowercased otherwise. -/
def titleCaseAux : Bool → List Char → List Char
  | _, [] => []
  | prevAlpha, c :: cs =>
    (if isLetterC c then (if prevAlpha then c.toLower else c.toUpper) else c)
      :: titleCaseAux (isLetterC c) cs

def pyTitle (s : String) : String := String.mk (titleCaseAux false s.data)

/-- The contact-name generation of _save_contact. -/
def nameFromEmail (email : String) : String :=
  pyTitle (pyReplace ((pySplit email "@").headD "") "." " ")

/-- Model of cur.lastrowid for an insert. -/
def nextContactId (db : List ContactRow) : Nat :=
  (db.map ContactRow.id).foldl max 0 + 1

/-- CompanyEnricher._save_contact: select by (company_id, email), keep
the existing row if found, else insert. -/
def save_contact (db : List ContactRow) (companyId : Nat) (cd : ContactInfo) :
    Option Nat × List ContactRow :=
  if cd.email.data.isEmpty then (none, db)
  else
    match db.find? (fun row => row.company_id == companyId && row.email == cd.email) with
    | some row => (some row.id, db)
    | none =>
      let newId := nextContactId db
      (some newId,
        db ++ [{ id := newId, company_id := companyId, name := nameFromEmail cd.email,
                 email := cd.email, position := cd.ctype, notes := strTake cd.context 500 }])

/-- The per-contact save loop of _save_and_return. -/
def save_contacts (companyId : Nat) (cs : List ContactInfo) (db : List ContactRow) :
    List ContactRow :=
  cs.foldl (fun acc c => (save_contact acc companyId c).2) db

/-- One adapter or resolver invocation made by the orchestrator (each
of which issues at least one HTTP request in the source unless handed
an unnormalizable URL). -/
inductive Step where
  | websiteA (url : String)
  | resolveA (name : String)
  | linkedinA (name : String)
  | wikipediaA (name : String)
  | googleA (name : String)
  deriving DecidableEq, Repr

structure EnrichOut where
  result : EnrichmentResult
  target_complete : Bool
  fields_updated : List String
  company : CompanyRow
  contactsDb : List ContactRow
  calls : List Step
  deriving DecidableEq, Repr

/-- CompanyEnricher._save_and_return, with datetime.utcnow() passed in
as now. -/
def save_and_return (c : CompanyRow) (db : List ContactRow) (r : EnrichmentResult)
    (now : String) (calls : List Step) : EnrichOut :=
  let upDescription := truthyO r.description && !truthyO c.description
  let upWebsite := truthyO r.website && !truthyO c.website
  let upLinkedin := truthyO r.linkedin_url && !truthyO c.linkedin_url
  let upGlassdoor := truthyO r.glassdoor_url && !truthyO c.glassdoor_url
  let upIndustry := truthyO r.industry && !truthyO c.industry
  let upEmployees := truthyO r.num_employees && !truthyO c.num_employees
  let fields :=
    (if upDescription then ["description"] else [])
      ++ (if upWebsite then ["website"] else [])
      ++ (if upLinkedin then ["linkedin_url"] else [])
      ++ (if upGlassdoor then ["glassdoor_url"] else [])
      ++ (if upIndustry then ["industry"] else [])
      ++ (if upEmployees then ["num_employees"] else [])
      ++ ["is_enriched", "enriched_at", "updated_at"]
  let c2 : CompanyRow :=
    { c with
      description := if upDescription then r.description else c.description
      website := if upWebsite then r.website else c.website
      linkedin_url := if upLinkedin then r.linkedin_url else c.linkedin_url
      glassdoor_url := if upGlassdoor then r.glassdoor_url else c.glassdoor_url
      industry := if upIndustry then r.industry else c.industry
      num_employees := if upEmployees then r.num_employees else c.num_employees
      is_enriched := true
      enriched_at := some now
      updated_at := some now }
  { result := r
    target_complete := is_target_complete r
    fields_updated := fields
    company := c2
    contactsDb := save_contacts c.id r.contacts db
    calls := calls }

/-! ### The orchestrator CompanyEnricher.enrich

The pre-fill of the accumulator from the stored row, then the five
guarded steps.  The source checks _is_target_complete and returns
early only after a step that actually ran; checking after a skipped
step too is equivalent because a skipped step leaves the accumulator
unchanged, so the re-checked value is the same false as before. -/

def prefillResult (c : CompanyRow) : EnrichmentResult :=
  let existing := pyOrS c.website c.company_url
  { website := if truthyO existing then existing else none
    linkedin_url := if truthyO c.linkedin_url then c.linkedin_url else none
    description := if truthyO c.description then c.description else none }

def enrichStep1 (w : World) (existing : Option String) (r : EnrichmentResult) :
    EnrichmentResult × List Step :=
  if truthyO existing then
    (merge r (enrich_from_website w (getS existing)), [Step.websiteA (getS existing)])
  else (r, [])

/-- Step 2: the resolver runs when the accumulator has no website and
the company has a name; the website adapter then runs only when
resolution succeeded (resolution output is never the empty string). -/
def enrichStep2 (w : World) (name : Option String) (r : EnrichmentResult) :
    EnrichmentResult × List Step :=
  if !truthyO r.website && truthyO name then
    match resolve_official_website w (getS name) with
    | some resolved =>
      let r2 := {r with website := some resolved, sources := r.sources ++ ["website_resolution"]}
      (merge r2 (enrich_from_website w resolved),
        [Step.resolveA (getS name), Step.websiteA resolved])
    | none => (r, [Step.resolveA (getS name)])
  else (r, [])

def enrichStep3 (w : World) (name : Option String) (r : EnrichmentResult) :
    EnrichmentResult × List Step :=
  if !truthyO r.linkedin_url && truthyO name then
    (merge r (enrich_from_linkedin w (getS name)), [Step.linkedinA (getS name)])
  else (r, [])

def enrichStep4 (w : World) (name : Option String) (r : EnrichmentResult) :
    EnrichmentResult × List Step :=
  if !truthyO r.description && truthyO name then
    (merge r (enrich_from_wikipedia w (getS name)), [Step.wikipediaA (getS name)])
  else (r, [])

def enrichStep5 (w : World) (name : Option String) (r : EnrichmentResult) :
    EnrichmentResult × List Step :=
  if truthyO name then
    (merge r (enrich_from_google_search w (getS name)), [Step.googleA (getS name)])
  else (r, [])

/-- CompanyEnricher.enrich for an existing company row (the missing-id
and missing-db ValueError paths are outside this function). -/
def enrich (w : World) (c : CompanyRow) (db : List ContactRow) (now : String) : EnrichOut :=
  let name := c.name
  let existing := pyOrS c.website c.company_url
  let r0 := prefillResult c
  if is_target_complete r0 then save_and_return c db r0 now [] else
  let s1 := enrichStep1 w existing r0
  if is_target_complete s1.1 then save_and_return c db s1.1 now s1.2 else
  let s2 := enrichStep2 w name s1.1
  if is_target_complete s2.1 then save_and_return c db s2.1 now (s1.2 ++ s2.2) else
  let s3 := enrichStep3 w name s2.1
  if is_target_complete s3.1 then save_and_return c db s3.1 now (s1.2 ++ s2.2 ++ s3.2) else
  let s4 := enrichStep4 w name s3.1
  if is_target_complete s4.1 then save_and_return c db s4.1 now (s1.2 ++ s2.2 ++ s3.2 ++ s4.2) else
  let s5 := enrichStep5 w name s4.1
  save_and_return c db s5.1 now (s1.2 ++ s2.2 ++ s3.2 ++ s4.2 ++ s5.2)

/-- The accumulator after the two website steps. -/
def enrichState2 (w : World) (c : CompanyRow) : EnrichmentResult :=
  (enrichStep2 w c.name (enrichStep1 w (pyOrS c.website c.company_url) (prefillResult c)).1).1

/-- The accumulator after step 3. -/
def enrichState3 (w : World) (c : CompanyRow) : EnrichmentResult :=
  (enrichStep3 w c.name (enrichState2 w c)).1

/-- The accumulator after step 1. -/
def enrichState1 (w : World) (c : CompanyRow) : EnrichmentResult :=
  (enrichStep1 w (pyOrS c.website c.company_url) (prefillResult c)).1

/-! ### Concrete fixtures used by witnesses and counterexamples -/

/-- A run in which every network request fails (requests.get raises),
so every oracle beyond fetch is never consulted. -/
def failWorld : World := { fetch := fun _ => none }

/-- A fully populated stored record (description, website, LinkedIn)
whose contact lives in the contacts table. -/
def companyFull : CompanyRow :=
  { id := 1, name := some "Acme", website := some "https://acme.com",
    linkedin_url := some "https://linkedin.com/company/acme",
    description := some "Acme makes things." }

def contactsFull : List ContactRow :=
  [{ id := 1, company_id := 1, name := "Hr", email := "hr@acme.com",
     position := "hr", notes := "" }]

/-- A record with a stored LinkedIn URL but neither website nor
description. -/
def companyLinkedOnly : CompanyRow :=
  { id := 2, name := some "Acme", linkedin_url := some "https://linkedin.com/company/acme" }

/-- A record with no name and no website. -/
def companyBlank : CompanyRow :=
  { id := 3, description := some "A description." }

def textC3 : String :=
  "For support, reach support@acme.com. Our recruiter contact is talent@acme.com."

def sampleContact : ContactInfo :=
  { email := "jane.doe@acme.com", ctype := "hr", context := "reach jane.doe@acme.com" }

def sampleResult : EnrichmentResult :=
  { website := some "https://a.com", emails := ["x@a.com"],
    contacts := [{ email := "x@a.com", ctype := "general", context := "" }],
    sources := ["website"] }

def emptyTagged (src : String) : EnrichmentResult := { sources := [src] }

/-- A record with only a name stored. -/
def companyNameOnly : CompanyRow := { id := 4, name := some "Acme" }

/-- A record carrying an old updated_at stamp. -/
def companyStamped : CompanyRow :=
  { id := 5, name := some "Acme", updated_at := some "2024-01-01" }

def demoContact : ContactInfo :=
  { email := "hr@acme.com", ctype := "hr", context := "hr@acme.com" }

def demoRow : ContactRow :=
  { id := 7, company_id := 1, name := "Hr", email := "hr@acme.com",
    position := "hr", notes := "" }

/-- The set-level invariant relating the emails list to the contact
list of a result. -/
def emailsMatchContacts (r : EnrichmentResult) : Prop :=
  (∀ x ∈ r.emails, x ∈ r.contacts.map ContactInfo.email)
    ∧ (∀ x ∈ r.contacts.map ContactInfo.email, x ∈ r.emails)

/-- Uniqueness of the (company_id, email) key across the contacts
table. -/
def uniquePerKey (db : List ContactRow) : Prop :=
  db.Pairwise (fun a b => ¬(a.company_id = b.company_id ∧ a.email = b.email))

/-! ## Lemmas -/

theorem char_toLower_toNat (c : Char) :
    (Char.toLower c).toNat = if c.toNat ≥ 65 ∧ c.toNat ≤ 90 then c.toNat + 32 else c.toNat := by
  simp only [Char.toLower]
  split
  · next h =>
    have hv : (c.toNat + 32).isValidChar := by
      left
      omega
    rw [Char.ofNat, dif_pos hv]
    have h2 : (Char.ofNatAux (c.toNat + 32) hv).toNat = c.toNat + 32 := rfl
    rw [h2]
  · rfl

theorem char_toLower_of_not (c : Char) (h : ¬(c.toNat ≥ 65 ∧ c.toNat ≤ 90)) :
    Char.toLower c = c := by
  simp only [Char.toLower]
  exact if_neg h

theorem char_toLower_idem (c : Char) : Char.toLower (Char.toLower c) = Char.toLower c := by
  apply char_toLower_of_not
  rw [char_toLower_toNat]
  split <;> omega

theorem mem_pyStrip {c : Char} {s : String} (h : c ∈ (pyStrip s).data) : c ∈ s.data := by
  simp only [pyStrip] at h
  rw [List.mem_reverse] at h
  have h2 := (@List.dropWhile_sublist _ ((s.data.dropWhile isSpaceC).reverse) isSpaceC).mem h
  rw [List.mem_reverse] at h2
  exact (List.dropWhile_sublist isSpaceC).mem h2

theorem pyLower_fixed {e : String} (h : ∀ c ∈ e.data, Char.toLower c = c) :
    pyLower e = e := by
  cases e with
  | mk d =>
    simp only [pyLower]
    congr 1
    calc d.map Char.toLower = d.map id := List.map_congr_left h
    _ = d := List.map_id d

theorem pyLower_of_pyLower_sub {e m : String} (h : ∀ c ∈ e.data, c ∈ (pyLower m).data) :
    pyLower e = e := by
  apply pyLower_fixed
  intro c hc
  have h2 : c ∈ m.data.map Char.toLower := h c hc
  rcases List.mem_map.1 h2 with ⟨a, _, ha⟩
  rw [← ha]
  exact char_toLower_idem a

/-! merge field lemmas -/

theorem mergeField_of_truthy {a : Option String} (b : Option String) (h : truthyO a = true) :
    mergeField a b = a := by
  simp [mergeField, h]

theorem truthy_mergeField {a : Option String} (b : Option String) (h : truthyO a = true) :
    truthyO (mergeField a b) = true := by
  rw [mergeField_of_truthy b h]
  exact h

theorem addNewStrings_append (l : List String) :
    ∀ acc, ∃ t, addNewStrings acc l = acc ++ t := by
  induction l with
  | nil => intro acc; exact ⟨[], by simp [addNewStrings]⟩
  | cons e rest ih =>
    intro acc
    simp only [addNewStrings]
    by_cases h : acc.contains e
    · rw [if_pos h]; exact ih acc
    · rw [if_neg h]
      rcases ih (acc ++ [e]) with ⟨t, ht⟩
      exact ⟨[e] ++ t, by rw [ht, List.append_assoc]⟩

theorem mem_addNewStrings (x : String) (l : List String) :
    ∀ acc, x ∈ addNewStrings acc l ↔ x ∈ acc ∨ x ∈ l := by
  induction l with
  | nil => intro acc; simp [addNewStrings]
  | cons e rest ih =>
    intro acc
    simp only [addNewStrings]
    by_cases h : acc.contains e
    · rw [if_pos h, ih acc]
      have he : e ∈ acc := by
        rw [List.contains_eq_any_beq] at h
        simpa using h
      constructor
      · rintro (hx | hx)
        · exact Or.inl hx
        · exact Or.inr (List.mem_cons_of_mem _ hx)
      · rintro (hx | hx)
        · exact Or.inl hx
        · rcases List.mem_cons.1 hx with hx | hx
          · exact Or.inl (hx ▸ he)
          · exact Or.inr hx
    · rw [if_neg h, ih (acc ++ [e])]
      simp only [List.mem_append, List.mem_singleton, List.mem_cons]
      tauto

theorem addNewContacts_append (l : List ContactInfo) :
    ∀ acc, ∃ t, addNewContacts acc l = acc ++ t := by
  induction l with
  | nil => intro acc; exact ⟨[], by simp [addNewContacts]⟩
  | cons e rest ih =>
    intro acc
    simp only [addNewContacts]
    by_cases h : (acc.map ContactInfo.email).contains e.email
    · rw [if_pos h]; exact ih acc
    · rw [if_neg h]
      rcases ih (acc ++ [e]) with ⟨t, ht⟩
      exact ⟨[e] ++ t, by rw [ht, List.append_assoc]⟩

theorem mem_email_addNewContacts (x : String) (l : List ContactInfo) :
    ∀ acc, x ∈ (addNewContacts acc l).map ContactInfo.email
      ↔ x ∈ acc.map ContactInfo.email ∨ x ∈ l.map ContactInfo.email := by
  induction l with
  | nil => intro acc; simp [addNewContacts]
  | cons e rest ih =>
    intro acc
    simp only [addNewContacts]
    by_cases h : (acc.map ContactInfo.email).contains e.email
    · rw [if_pos h, ih acc]
      have he : e.email ∈ acc.map ContactInfo.email := by
        rw [List.contains_eq_any_beq] at h
        simpa using h
      simp only [List.map_cons, List.mem_cons]
      constructor
      · rintro (hx | hx)
        · exact Or.inl hx
        · exact Or.inr (Or.inr hx)
      · rintro (hx | hx | hx)
        · exact Or.inl hx
        · exact Or.inl (hx ▸ he)
        · exact Or.inr hx
    · rw [if_neg h, ih (acc ++ [e])]
      simp only [List.map_append, List.mem_append, List.map_cons, List.map_nil,
        List.mem_singleton, List.mem_cons]
      tauto

/-! Completeness is monotone along the waterfall: merging can only add
truthy fields and contacts. -/

theorem complete_merge {a : EnrichmentResult} (b : EnrichmentResult)
    (h : is_target_complete a = true) : is_target_complete (merge a b) = true := by
  simp only [is_target_complete, Bool.and_eq_true, decide_eq_true_eq] at h ⊢
  obtain ⟨⟨⟨hd, hl⟩, hw⟩, hc⟩ := h
  refine ⟨⟨⟨truthy_mergeField _ hd, truthy_mergeField _ hl⟩, truthy_mergeField _ hw⟩, ?_⟩
  show 0 < (merge a b).contacts.length
  rcases addNewContacts_append b.contacts a.contacts with ⟨t, ht⟩
  simp only [merge, ht, List.length_append]
  omega

theorem complete_step1 (w : World) (existing : Option String) {r : EnrichmentResult}
    (h : is_target_complete r = true) :
    is_target_complete (enrichStep1 w existing r).1 = true := by
  simp only [enrichStep1]
  split
  · exact complete_merge _ h
  · exact h

theorem complete_step2 (w : World) (name : Option String) {r : EnrichmentResult}
    (h : is_target_complete r = true) :
    is_target_complete (enrichStep2 w name r).1 = true := by
  have hw : truthyO r.website = true := by
    simp only [is_target_complete, Bool.and_eq_true] at h
    exact h.1.2
  simp only [enrichStep2, hw, Bool.not_true, Bool.false_and, if_neg (by simp : ¬(false = true))]
  exact h

theorem complete_step3 (w : World) (name : Option String) {r : EnrichmentResult}
    (h : is_target_complete r = true) :
    is_target_complete (enrichStep3 w name r).1 = true := by
  have hl : truthyO r.linkedin_url = true := by
    simp only [is_target_complete, Bool.and_eq_true] at h
    exact h.1.1.2
  simp only [enrichStep3, hl, Bool.not_true, Bool.false_and, if_neg (by simp : ¬(false = true))]
  exact h

theorem complete_step4 (w : World) (name : Option String) {r : EnrichmentResult}
    (h : is_target_complete r = true) :
    is_target_complete (enrichStep4 w name r).1 = true := by
  have hd : truthyO r.description = true := by
    simp only [is_target_complete, Bool.and_eq_true] at h
    exact h.1.1.1
  simp only [enrichStep4, hd, Bool.not_true, Bool.false_and, if_neg (by simp : ¬(false = true))]
  exact h

/-- The pre-filled accumulator has no contacts, so the initial
completeness check of enrich is always false. -/
theorem complete_prefill_false (c : CompanyRow) :
    is_target_complete (prefillResult c) = false := by
  simp [is_target_complete, prefillResult]

/-! The three search-based adapters never touch the emails or contacts
lists in any branch. -/

theorem linkedin_no_contacts (w : World) (n : String) :
    (enrich_from_linkedin w n).emails = [] ∧ (enrich_from_linkedin w n).contacts = [] := by
  simp only [enrich_from_linkedin]
  repeat' split
  all_goals exact ⟨rfl, rfl⟩

theorem google_no_contacts (w : World) (n : String) :
    (enrich_from_google_search w n).emails = []
      ∧ (enrich_from_google_search w n).contacts = [] := by
  simp only [enrich_from_google_search]
  repeat' split
  all_goals exact ⟨rfl, rfl⟩

theorem infoboxRowUpdate_no_contacts (acc : EnrichmentResult) (row : InfoRow) :
    (infoboxRowUpdate acc row).emails = acc.emails
      ∧ (infoboxRowUpdate acc row).contacts = acc.contacts := by
  simp only [infoboxRowUpdate]
  repeat' split
  all_goals exact ⟨rfl, rfl⟩

theorem parse_infobox_no_contacts (rows : List InfoRow) :
    ∀ r, (parse_wikipedia_infobox rows r).emails = r.emails
      ∧ (parse_wikipedia_infobox rows r).contacts = r.contacts := by
  induction rows with
  | nil => intro r; exact ⟨rfl, rfl⟩
  | cons a t ih =>
    intro r
    have h1 := infoboxRowUpdate_no_contacts r a
    have h2 := ih (infoboxRowUpdate r a)
    simp only [parse_wikipedia_infobox, List.foldl_cons] at *
    exact ⟨h2.1.trans h1.1, h2.2.trans h1.2⟩

theorem wikiDescFromPages_no_contacts (pages : List (String × String)) :
    ∀ r, (wikiDescFromPages pages r).emails = r.emails
      ∧ (wikiDescFromPages pages r).contacts = r.contacts := by
  induction pages with
  | nil => intro r; exact ⟨rfl, rfl⟩
  | cons a t ih =>
    intro r
    simp only [wikiDescFromPages, List.foldl_cons] at *
    rcases ih (if a.1 = "-1" then r
      else if !a.2.data.isEmpty && a.2.length > 100 then
        {r with description := some (firstThreeSentences a.2)}
      else r) with ⟨he, hc⟩
    constructor
    · rw [he]; repeat' split
      all_goals rfl
    · rw [hc]; repeat' split
      all_goals rfl

theorem wikipedia_no_contacts (w : World) (n : String) :
    (enrich_from_wikipedia w n).emails = [] ∧ (enrich_from_wikipedia w n).contacts = [] := by
  simp only [enrich_from_wikipedia]
  repeat' split
  all_goals
    first
    | exact ⟨rfl, rfl⟩
    | (constructor
       · first
         | exact (wikiDescFromPages_no_contacts _ _).1
         | exact ((parse_infobox_no_contacts _ _).1).trans (wikiDescFromPages_no_contacts _ _).1
       · first
         | exact (wikiDescFromPages_no_contacts _ _).2
         | exact ((parse_infobox_no_contacts _ _).2).trans (wikiDescFromPages_no_contacts _ _).2)

/-! ## Claim theorems -/

/-- C2: for all EnrichmentResults A and B and every scalar field
(website, description, linkedin_url, glassdoor_url, twitter_url,
facebook_url, phone, careers_url, about_url, contact_url, industry,
founded, headquarters, num_employees), if the field is populated in A
then merge(A, B) keeps the value of A for that field; a value from B
is taken only when the field of A is empty (first-found-wins). -/
theorem C2_merge_first_found_wins (a b : EnrichmentResult) :
    (truthyO a.website = true → (merge a b).website = a.website)
    ∧ (truthyO a.description = true → (merge a b).description = a.description)
    ∧ (truthyO a.linkedin_url = true → (merge a b).linkedin_url = a.linkedin_url)
    ∧ (truthyO a.glassdoor_url = true → (merge a b).glassdoor_url = a.glassdoor_url)
    ∧ (truthyO a.twitter_url = true → (merge a b).twitter_url = a.twitter_url)
    ∧ (truthyO a.facebook_url = true → (merge a b).facebook_url = a.facebook_url)
    ∧ (truthyO a.phone = true → (merge a b).phone = a.phone)
    ∧ (truthyO a.careers_url = true → (merge a b).careers_url = a.careers_url)
    ∧ (truthyO a.about_url = true → (merge a b).about_url = a.about_url)
    ∧ (truthyO a.contact_url = true → (merge a b).contact_url = a.contact_url)
    ∧ (truthyO a.industry = true → (merge a b).industry = a.industry)
    ∧ (truthyO a.founded = true → (merge a b).founded = a.founded)
    ∧ (truthyO a.headquarters = true → (merge a b).headquarters = a.headquarters)
    ∧ (truthyO a.num_employees = true → (merge a b).num_employees = a.num_employees)
    ∧ (truthyO a.website = false → truthyO b.website = true → (merge a b).website = b.website) := by
  refine ⟨fun h => mergeField_of_truthy _ h, fun h => mergeField_of_truthy _ h,
    fun h => mergeField_of_truthy _ h, fun h => mergeField_of_truthy _ h,
    fun h => mergeField_of_truthy _ h, fun h => mergeField_of_truthy _ h,
    fun h => mergeField_of_truthy _ h, fun h => mergeField_of_truthy _ h,
    fun h => mergeField_of_truthy _ h, fun h => mergeField_of_truthy _ h,
    fun h => mergeField_of_truthy _ h, fun h => mergeField_of_truthy _ h,
    fun h => mergeField_of_truthy _ h, fun h => mergeField_of_truthy _ h, ?_⟩
  intro h1 h2
  show mergeField a.website b.website = b.website
  simp [mergeField, h1, h2]

theorem C2_witness :
    (merge sampleResult (emptyTagged "linkedin")).website = sampleResult.website :=
  (C2_merge_first_found_wins sampleResult (emptyTagged "linkedin")).1 (by decide)

/-- C8: the invariant that the emails list of an EnrichmentResult
equals, as a set, the set of email values of its contacts list is
preserved by merge and holds for every output of the four source
adapters, over every network and parsing oracle. -/
theorem C8_emails_contacts_invariant :
    (∀ a b : EnrichmentResult, emailsMatchContacts a → emailsMatchContacts b →
      emailsMatchContacts (merge a b))
    ∧ (∀ (w : World) (u : String), emailsMatchContacts (enrich_from_website w u))
    ∧ (∀ (w : World) (n : String), emailsMatchContacts (enrich_from_linkedin w n))
    ∧ (∀ (w : World) (n : String), emailsMatchContacts (enrich_from_wikipedia w n))
    ∧ (∀ (w : World) (n : String), emailsMatchContacts (enrich_from_google_search w n)) := by
  refine ⟨?_, ?_, ?_, ?_, ?_⟩
  · rintro a b ⟨ha1, ha2⟩ ⟨hb1, hb2⟩
    constructor
    · intro x hx
      have hx2 : x ∈ a.emails ∨ x ∈ b.emails := (mem_addNewStrings x b.emails a.emails).1 hx
      have hx3 : x ∈ a.contacts.map ContactInfo.email ∨ x ∈ b.contacts.map ContactInfo.email := by
        rcases hx2 with hx2 | hx2
        · exact Or.inl (ha1 x hx2)
        · exact Or.inr (hb1 x hx2)
      exact (mem_email_addNewContacts x b.contacts a.contacts).2 hx3
    · intro x hx
      have hx2 := (mem_email_addNewContacts x b.contacts a.contacts).1 hx
      have hx3 : x ∈ a.emails ∨ x ∈ b.emails := by
        rcases hx2 with hx2 | hx2
        · exact Or.inl (ha2 x hx2)
        · exact Or.inr (hb2 x hx2)
      exact (mem_addNewStrings x b.emails a.emails).2 hx3
  · intro w u
    cases h : normalize_website_url u with
    | none => simp [emailsMatchContacts, enrich_from_website, h]
    | some base => simp [emailsMatchContacts, enrich_from_website, h]
  · intro w n
    rcases linkedin_no_contacts w n with ⟨he, hc⟩
    constructor
    · intro x hx; rw [he] at hx; cases hx
    · intro x hx; rw [hc] at hx; cases hx
  · intro w n
    rcases wikipedia_no_contacts w n with ⟨he, hc⟩
    constructor
    · intro x hx; rw [he] at hx; cases hx
    · intro x hx; rw [hc] at hx; cases hx
  · intro w n
    rcases google_no_contacts w n with ⟨he, hc⟩
    constructor
    · intro x hx; rw [he] at hx; cases hx
    · intro x hx; rw [hc] at hx; cases hx

theorem C8_witness : emailsMatchContacts (merge sampleResult (emptyTagged "linkedin")) :=
  C8_emails_contacts_invariant.1 sampleResult (emptyTagged "linkedin")
    (by constructor <;> (intro x hx; simp [sampleResult] at hx ⊢; simp [hx]))
    (by constructor <;> (intro x hx; simp [emptyTagged] at hx))

/-- C3 counterexample: on the example text the code types
support@acme.com as recruiter, not as support, because the plus-minus
100 character context window spans the whole sentence, which contains
the word recruiter, and the recruiter pattern is tested before the
support pattern. -/
theorem C3_counterexample :
    (extract_emails_with_context textC3).map (fun c => (c.email, c.ctype))
      = [("support@acme.com", "recruiter"), ("talent@acme.com", "recruiter")] := by
  decide

/-- C3 amended: for the example text, extract_emails_with_context
returns exactly two entries, support@acme.com and talent@acme.com,
both typed recruiter, each carrying the whole text as context. -/
theorem C3_example_classification :
    extract_emails_with_context textC3
      = [{ email := "support@acme.com", ctype := "recruiter", context := textC3 },
         { email := "talent@acme.com", ctype := "recruiter", context := textC3 }] := by
  decide

theorem probePaths_none (w : World) (h : ∀ u, w.fetch u = none) (base : String)
    (paths : List String) (m : Nat) : probePaths w base paths m = none := by
  induction paths with
  | nil => rfl
  | cons p t ih =>
    simp only [probePaths, List.findSome?_cons, fetch_page, h] at ih ⊢
    exact ih

/-- C5 counterexample: with every fetch failing, enrich_from_website
still returns a result whose website field holds the normalized input
URL, so its output is not the empty result tagged website. -/
theorem C5_counterexample :
    (enrich_from_website failWorld "https://acme.example").sources = ["website"]
    ∧ (enrich_from_website failWorld "https://acme.example").website = some "https://acme.example"
    ∧ enrich_from_website failWorld "https://acme.example" ≠ emptyTagged "website" := by
  refine ⟨by decide, by decide, by decide⟩

/-- C5 amended: in a run where every network request fails, the
LinkedIn, Wikipedia and Google adapters return exactly the empty
result tagged with their own source name, and the website adapter
returns the empty tagged result except that its website field holds
the normalized input URL (empty when the URL does not normalize);
in the embedding no adapter can raise. -/
theorem C5_adapters_degrade (w : World) (name url : String) (h : ∀ u, w.fetch u = none) :
    enrich_from_linkedin w name = emptyTagged "linkedin"
    ∧ enrich_from_wikipedia w name = emptyTagged "wikipedia"
    ∧ enrich_from_google_search w name = emptyTagged "google_search"
    ∧ enrich_from_website w url
        = {emptyTagged "website" with website := normalize_website_url url} := by
  refine ⟨?_, ?_, ?_, ?_⟩
  · simp [enrich_from_linkedin, h, emptyTagged]
  · simp [enrich_from_wikipedia, h, emptyTagged]
  · simp [enrich_from_google_search, h, emptyTagged]
  · cases hn : normalize_website_url url with
    | none => simp [enrich_from_website, hn, emptyTagged]
    | some base =>
      simp [enrich_from_website, hn, emptyTagged, websiteHomepage, websiteAbout,
        websiteContact, websiteCareers, fetch_page, h, find_about_page, find_contact_page,
        find_careers_page, probePaths_none w h, dedupByEmailAux]

theorem C5_witness :
    enrich_from_linkedin failWorld "Acme" = emptyTagged "linkedin"
    ∧ enrich_from_wikipedia failWorld "Acme" = emptyTagged "wikipedia"
    ∧ enrich_from_google_search failWorld "Acme" = emptyTagged "google_search"
    ∧ enrich_from_website failWorld "https://acme.example"
        = {emptyTagged "website" with website := normalize_website_url "https://acme.example"} :=
  C5_adapters_degrade failWorld "Acme" "https://acme.example" (fun _ => rfl)

theorem writeField_pop (rv cv : Option String) (h : truthyO cv = true) :
    (if truthyO rv && !truthyO cv then rv else cv) = cv := by
  simp [h]

theorem writeField_changed (rv cv : Option String)
    (h : (if truthyO rv && !truthyO cv then rv else cv) ≠ cv) :
    truthyO cv = false ∧ truthyO rv = true
      ∧ (if truthyO rv && !truthyO cv then rv else cv) = rv := by
  by_cases hc : (truthyO rv && !truthyO cv) = true
  · have hc2 := hc
    rw [Bool.and_eq_true] at hc2
    obtain ⟨h1, h2⟩ := hc2
    rw [if_pos hc]
    exact ⟨by simpa using h2, h1, rfl⟩
  · rw [if_neg hc] at h
    exact absurd rfl h

/-- C6 counterexample: _save_and_return also refreshes the updated_at
column, so not every stored field outside the listed ones is left
unchanged. -/
theorem C6_counterexample :
    companyStamped.updated_at = some "2024-01-01"
    ∧ ((save_and_return companyStamped [] (emptyTagged "website") "2025-06-01" []).company).updated_at
        = some "2025-06-01" :=
  ⟨rfl, rfl⟩

/-- C6 amended: the persistence step writes back only the data fields
(description, website, linkedin_url, glassdoor_url, industry,
num_employees) that are currently empty on the stored record, never
overwriting a populated field; on every run it sets is_enriched, stamps
enriched_at and also refreshes updated_at; all other stored columns
(id, name, company_url) are left unchanged. -/
theorem C6_persistence_frame (c : CompanyRow) (db : List ContactRow) (r : EnrichmentResult)
    (now : String) (calls : List Step) :
    (truthyO c.description = true →
      (save_and_return c db r now calls).company.description = c.description)
    ∧ (truthyO c.website = true →
      (save_and_return c db r now calls).company.website = c.website)
    ∧ (truthyO c.linkedin_url = true →
      (save_and_return c db r now calls).company.linkedin_url = c.linkedin_url)
    ∧ (truthyO c.glassdoor_url = true →
      (save_and_return c db r now calls).company.glassdoor_url = c.glassdoor_url)
    ∧ (truthyO c.industry = true →
      (save_and_return c db r now calls).company.industry = c.industry)
    ∧ (truthyO c.num_employees = true →
      (save_and_return c db r now calls).company.num_employees = c.num_employees)
    ∧ ((save_and_return c db r now calls).company.description ≠ c.description →
      truthyO c.description = false
        ∧ (save_and_return c db r now calls).company.description = r.description)
    ∧ ((save_and_return c db r now calls).company.website ≠ c.website →
      truthyO c.website = false
        ∧ (save_and_return c db r now calls).company.website = r.website)
    ∧ ((save_and_return c db r now calls).company.linkedin_url ≠ c.linkedin_url →
      truthyO c.linkedin_url = false
        ∧ (save_and_return c db r now calls).company.linkedin_url = r.linkedin_url)
    ∧ ((save_and_return c db r now calls).company.glassdoor_url ≠ c.glassdoor_url →
      truthyO c.glassdoor_url = false
        ∧ (save_and_return c db r now calls).company.glassdoor_url = r.glassdoor_url)
    ∧ ((save_and_return c db r now calls).company.industry ≠ c.industry →
      truthyO c.industry = false
        ∧ (save_and_return c db r now calls).company.industry = r.industry)
    ∧ ((save_and_return c db r now calls).company.num_employees ≠ c.num_employees →
      truthyO c.num_employees = false
        ∧ (save_and_return c db r now calls).company.num_employees = r.num_employees)
    ∧ (save_and_return c db r now calls).company.is_enriched = true
    ∧ (save_and_return c db r now calls).company.enriched_at = some now
    ∧ (save_and_return c db r now calls).company.updated_at = some now
    ∧ (save_and_return c db r now calls).company.id = c.id
    ∧ (save_and_return c db r now calls).company.name = c.name
    ∧ (save_and_return c db r now calls).company.company_url = c.company_url := by
  refine ⟨fun h => writeField_pop _ _ h, fun h => writeField_pop _ _ h,
    fun h => writeField_pop _ _ h, fun h => writeField_pop _ _ h,
    fun h => writeField_pop _ _ h, fun h => writeField_pop _ _ h,
    fun h => ?_, fun h => ?_, fun h => ?_, fun h => ?_, fun h => ?_, fun h => ?_,
    rfl, rfl, rfl, rfl, rfl, rfl⟩
  all_goals
    rcases writeField_changed _ _ h with ⟨h1, _, h3⟩
    exact ⟨h1, h3⟩

theorem C6_witness :
    (save_and_return companyFull [] sampleResult "T" []).company.description
      = companyFull.description :=
  (C6_persistence_frame companyFull [] sampleResult "T" []).1 (by decide)

/-- C10: a stored company with a falsy name and no stored website
(neither website nor company_url) triggers no adapter and no resolver
invocation at all, yet its row is stamped is_enriched and enriched_at,
and the run reports target_complete false. -/
theorem C10_no_name_no_website (w : World) (c : CompanyRow) (db : List ContactRow)
    (now : String) (hn : truthyO c.name = false) (hw : truthyO c.website = false)
    (hcu : truthyO c.company_url = false) :
    (enrich w c db now).calls = []
    ∧ (enrich w c db now).company.is_enriched = true
    ∧ (enrich w c db now).company.enriched_at = some now
    ∧ (enrich w c db now).target_complete = false := by
  have hex : truthyO (pyOrS c.website c.company_url) = false := by
    simp only [pyOrS, hw, Bool.false_eq_true, if_false]
    exact hcu
  have h0 := complete_prefill_false c
  simp only [enrich, h0, enrichStep1, enrichStep2, enrichStep3, enrichStep4, enrichStep5,
    hex, hn, Bool.false_eq_true, if_false, Bool.and_false, Bool.not_false, Bool.and_true]
  simp only [save_and_return, h0, List.append_nil, List.nil_append]
  exact ⟨trivial, trivial, trivial, trivial⟩

theorem C10_witness :
    (enrich failWorld companyBlank [] "T").calls = []
    ∧ (enrich failWorld companyBlank [] "T").company.is_enriched = true
    ∧ (enrich failWorld companyBlank [] "T").company.enriched_at = some "T"
    ∧ (enrich failWorld companyBlank [] "T").target_complete = false :=
  C10_no_name_no_website failWorld companyBlank [] "T" (by decide) (by decide) (by decide)

/-- C1 counterexample: a stored record with description, website and
linkedin_url populated and a contact row in the contacts table still
triggers two adapter invocations (the website adapter on the stored
URL and the Google fallback), because contacts are never pre-filled
from storage and so the early target_complete return cannot fire. -/
theorem C1_counterexample :
    (truthyO companyFull.description && truthyO companyFull.website
      && truthyO companyFull.linkedin_url) = true
    ∧ contactsFull.any (fun row => row.company_id == companyFull.id) = true
    ∧ (enrich failWorld companyFull contactsFull "T").calls
        = [Step.websiteA "https://acme.com", Step.googleA "Acme"] := by
  refine ⟨by decide, by decide, by decide⟩

/-- C1 amended: for a stored record with description, website and
linkedin_url populated (and any stored contacts), enrich always
invokes the WebsiteAdapter on the stored website; when that scrape
does not complete the target it also invokes the Google fallback (when
a name exists) and nothing else — the early zero-call return never
fires because stored contacts are not loaded into the accumulator. -/
theorem C1_amended (w : World) (c : CompanyRow) (db : List ContactRow) (now : String)
    (hd : truthyO c.description = true) (hw : truthyO c.website = true)
    (hl : truthyO c.linkedin_url = true)
    (hc : ∃ row ∈ db, row.company_id = c.id) :
    (enrich w c db now).calls
      = Step.websiteA (getS c.website)
        :: (if is_target_complete (enrichState1 w c) = true then []
            else if truthyO c.name = true then [Step.googleA (getS c.name)] else []) := by
  have hex : pyOrS c.website c.company_url = c.website := by
    simp [pyOrS, hw]
  have hext : truthyO (pyOrS c.website c.company_url) = true := by
    rw [hex]; exact hw
  have h0 : is_target_complete (prefillResult c) = false := complete_prefill_false c
  have hs1 : enrichStep1 w (pyOrS c.website c.company_url) (prefillResult c)
      = (merge (prefillResult c) (enrich_from_website w (getS c.website)),
         [Step.websiteA (getS c.website)]) := by
    rw [enrichStep1, if_pos hext, hex]
  have hstate1 : enrichState1 w c
      = merge (prefillResult c) (enrich_from_website w (getS c.website)) := by
    rw [enrichState1, hs1]
  have hpw : (prefillResult c).website = c.website := by
    simp only [prefillResult, hex]
    rw [if_pos hw]
  have hpl : (prefillResult c).linkedin_url = c.linkedin_url := by
    simp only [prefillResult]
    rw [if_pos hl]
  have hpd : (prefillResult c).description = c.description := by
    simp only [prefillResult]
    rw [if_pos hd]
  have h1w : truthyO (merge (prefillResult c) (enrich_from_website w (getS c.website))).website
      = true := by
    show truthyO (mergeField (prefillResult c).website _) = true
    exact truthy_mergeField _ (by rw [hpw]; exact hw)
  have h1l : truthyO (merge (prefillResult c)
      (enrich_from_website w (getS c.website))).linkedin_url = true := by
    show truthyO (mergeField (prefillResult c).linkedin_url _) = true
    exact truthy_mergeField _ (by rw [hpl]; exact hl)
  have h1d : truthyO (merge (prefillResult c)
      (enrich_from_website w (getS c.website))).description = true := by
    show truthyO (mergeField (prefillResult c).description _) = true
    exact truthy_mergeField _ (by rw [hpd]; exact hd)
  simp only [enrich, h0, Bool.false_eq_true, if_false, hs1]
  by_cases h1 : is_target_complete
      (merge (prefillResult c) (enrich_from_website w (getS c.website))) = true
  · rw [if_pos h1, hstate1, if_pos h1]
    rfl
  · rw [if_neg h1]
    have hs2 : enrichStep2 w c.name
        (merge (prefillResult c) (enrich_from_website w (getS c.website)))
        = (merge (prefillResult c) (enrich_from_website w (getS c.website)), []) := by
      rw [enrichStep2, h1w]
      simp
    rw [hs2]
    simp only []
    rw [if_neg h1]
    have hs3 : enrichStep3 w c.name
        (merge (prefillResult c) (enrich_from_website w (getS c.website)))
        = (merge (prefillResult c) (enrich_from_website w (getS c.website)), []) := by
      rw [enrichStep3, h1l]
      simp
    rw [hs3]
    simp only []
    rw [if_neg h1]
    have hs4 : enrichStep4 w c.name
        (merge (prefillResult c) (enrich_from_website w (getS c.website)))
        = (merge (prefillResult c) (enrich_from_website w (getS c.website)), []) := by
      rw [enrichStep4, h1d]
      simp
    rw [hs4]
    simp only []
    rw [if_neg h1, hstate1, if_neg h1]
    by_cases hn : truthyO c.name = true
    · rw [if_pos hn]
      simp [enrichStep5, hn, save_and_return]
    · rw [if_neg hn]
      simp [enrichStep5, hn, save_and_return]

theorem C1_witness :
    (enrich failWorld companyFull contactsFull "T").calls
      = Step.websiteA (getS companyFull.website)
        :: (if is_target_complete (enrichState1 failWorld companyFull) = true then []
            else if truthyO companyFull.name = true
              then [Step.googleA (getS companyFull.name)] else []) :=
  C1_amended failWorld companyFull contactsFull "T" (by decide) (by decide) (by decide)
    ⟨{ id := 1, company_id := 1, name := "Hr", email := "hr@acme.com",
       position := "hr", notes := "" }, by decide, by decide⟩

/-- The call trace of enrich as a function of the intermediate
completeness checks. -/
theorem enrich_calls (w : World) (c : CompanyRow) (db : List ContactRow) (now : String) :
    (enrich w c db now).calls =
      (if is_target_complete (prefillResult c) = true then []
      else
        let s1 := enrichStep1 w (pyOrS c.website c.company_url) (prefillResult c)
        if is_target_complete s1.1 = true then s1.2
        else
          let s2 := enrichStep2 w c.name s1.1
          if is_target_complete s2.1 = true then s1.2 ++ s2.2
          else
            let s3 := enrichStep3 w c.name s2.1
            if is_target_complete s3.1 = true then s1.2 ++ s2.2 ++ s3.2
            else
              let s4 := enrichStep4 w c.name s3.1
              if is_target_complete s4.1 = true then s1.2 ++ s2.2 ++ s3.2 ++ s4.2
              else
                let s5 := enrichStep5 w c.name s4.1
                s1.2 ++ s2.2 ++ s3.2 ++ s4.2 ++ s5.2) := by
  simp only [enrich]
  repeat' split
  all_goals rfl

/-- C4 counterexample: with a stored LinkedIn URL, target_complete
still false after the website steps and a company name present, the
ProfessionalNetworkAdapter step is nevertheless skipped (its guard
also requires the linkedin_url field to be empty), while later steps
run. -/
theorem C4_counterexample :
    is_target_complete (enrichState2 failWorld companyLinkedOnly) = false
    ∧ truthyO companyLinkedOnly.name = true
    ∧ (enrich failWorld companyLinkedOnly [] "T").calls
        = [Step.resolveA "Acme", Step.wikipediaA "Acme", Step.googleA "Acme"]
    ∧ Step.linkedinA "Acme" ∉ (enrich failWorld companyLinkedOnly [] "T").calls := by
  refine ⟨by decide, by decide, by decide, by decide⟩

/-- C4 amended: step 3 (ProfessionalNetworkAdapter) executes whenever
target_complete is false after the website steps, the company has a
name, and the linkedin_url field of the accumulator is still empty;
step 4 (EncyclopediaAdapter) executes whenever target_complete is
false after step 3, the company has a name, and the description field
is still empty. -/
theorem C4_amended (w : World) (c : CompanyRow) (db : List ContactRow) (now : String) :
    (is_target_complete (enrichState2 w c) = false → truthyO c.name = true →
      truthyO (enrichState2 w c).linkedin_url = false →
      Step.linkedinA (getS c.name) ∈ (enrich w c db now).calls)
    ∧ (is_target_complete (enrichState3 w c) = false → truthyO c.name = true →
      truthyO (enrichState3 w c).description = false →
      Step.wikipediaA (getS c.name) ∈ (enrich w c db now).calls) := by
  have h0 := complete_prefill_false c
  have hs1eq : (enrichStep1 w (pyOrS c.website c.company_url) (prefillResult c)).1
      = enrichState1 w c := rfl
  have hs2eq : (enrichStep2 w c.name (enrichState1 w c)).1 = enrichState2 w c := rfl
  have hs3eq : (enrichStep3 w c.name (enrichState2 w c)).1 = enrichState3 w c := rfl
  constructor
  · intro h2 hn hlk
    have h1 : is_target_complete (enrichState1 w c) = false := by
      cases h : is_target_complete (enrichState1 w c) with
      | false => rfl
      | true =>
        have h5 := complete_step2 w c.name h
        rw [hs2eq] at h5
        rw [h5] at h2
        cases h2
    have hs3 : enrichStep3 w c.name (enrichState2 w c)
        = (merge (enrichState2 w c) (enrich_from_linkedin w (getS c.name)),
           [Step.linkedinA (getS c.name)]) := by
      rw [enrichStep3, hlk, hn]
      simp
    rw [enrich_calls, if_neg (by rw [h0]; exact Bool.false_ne_true)]
    simp only [hs1eq]
    rw [if_neg (by rw [h1]; exact Bool.false_ne_true)]
    simp only [hs2eq]
    rw [if_neg (by rw [h2]; exact Bool.false_ne_true)]
    simp only [hs3]
    split
    · simp
    · split <;> simp
  · intro h3 hn hde
    have h2 : is_target_complete (enrichState2 w c) = false := by
      cases h : is_target_complete (enrichState2 w c) with
      | false => rfl
      | true =>
        have h5 := complete_step3 w c.name h
        rw [hs3eq] at h5
        rw [h5] at h3
        cases h3
    have h1 : is_target_complete (enrichState1 w c) = false := by
      cases h : is_target_complete (enrichState1 w c) with
      | false => rfl
      | true =>
        have h5 := complete_step2 w c.name h
        rw [hs2eq] at h5
        rw [h5] at h2
        cases h2
    have hs4 : enrichStep4 w c.name (enrichState3 w c)
        = (merge (enrichState3 w c) (enrich_from_wikipedia w (getS c.name)),
           [Step.wikipediaA (getS c.name)]) := by
      rw [enrichStep4, hde, hn]
      simp
    rw [enrich_calls, if_neg (by rw [h0]; exact Bool.false_ne_true)]
    simp only [hs1eq]
    rw [if_neg (by rw [h1]; exact Bool.false_ne_true)]
    simp only [hs2eq]
    rw [if_neg (by rw [h2]; exact Bool.false_ne_true)]
    simp only [hs3eq]
    rw [if_neg (by rw [h3]; exact Bool.false_ne_true)]
    simp only [hs4]
    split
    · simp
    · simp

theorem C4_witness :
    Step.linkedinA "Acme" ∈ (enrich failWorld companyNameOnly [] "T").calls :=
  (C4_amended failWorld companyNameOnly [] "T").1 (by decide) (by decide) (by decide)

/-! Order facts for the code-point comparator used by sorted(). -/

theorem listLeB_not_lt {x y : List Char} (h : listLeB x y = true) : ¬ List.lt y x := by
  induction x generalizing y with
  | nil =>
    intro hlt
    cases hlt
  | cons a as ih =>
    cases y with
    | nil => simp [listLeB] at h
    | cons b bs =>
      intro hlt
      simp only [listLeB] at h
      by_cases h1 : a.toNat < b.toNat
      · rw [if_pos h1] at h
        cases hlt with
        | head _ _ hba => exact absurd (show b.toNat < a.toNat from hba) (by omega)
        | tail h2 h3 h4 => exact h3 h1
      · rw [if_neg h1] at h
        by_cases h2 : b.toNat < a.toNat
        · rw [if_pos h2] at h
          cases h
        · rw [if_neg h2] at h
          cases hlt with
          | head _ _ hba => exact h2 hba
          | tail _ _ h4 => exact ih h h4

theorem listLeB_lex_or_eq {x y : List Char} (h : listLeB x y = true) :
    List.Lex (· < ·) x y ∨ x = y := by
  induction x generalizing y with
  | nil =>
    cases y with
    | nil => exact Or.inr rfl
    | cons b bs => exact Or.inl (List.Lex.nil)
  | cons a as ih =>
    cases y with
    | nil => simp [listLeB] at h
    | cons b bs =>
      simp only [listLeB] at h
      by_cases h1 : a.toNat < b.toNat
      · exact Or.inl (List.Lex.rel h1)
      · rw [if_neg h1] at h
        by_cases h2 : b.toNat < a.toNat
        · rw [if_pos h2] at h
          cases h
        · rw [if_neg h2] at h
          have hab : a = b := Char.ext (UInt32.ext (show a.toNat = b.toNat by omega))
          subst hab
          rcases ih h with h3 | h3
          · exact Or.inl (List.Lex.cons h3)
          · exact Or.inr (by rw [h3])

theorem strLeB_le {a b : String} (h : strLeB a b = true) : a ≤ b := by
  rw [String.le_iff_toList_le]
  rw [le_iff_lt_or_eq]
  rcases listLeB_lex_or_eq h with h1 | h1
  · exact Or.inl h1
  · right
    show a.data = b.data
    exact h1

theorem listLeB_total (x y : List Char) : listLeB x y = true ∨ listLeB y x = true := by
  induction x generalizing y with
  | nil => left; rfl
  | cons a as ih =>
    cases y with
    | nil => right; rfl
    | cons b bs =>
      simp only [listLeB]
      by_cases h1 : a.toNat < b.toNat
      · left
        rw [if_pos h1]
      · by_cases h2 : b.toNat < a.toNat
        · right
          rw [if_pos h2]
        · rw [if_neg h1, if_neg h2, if_neg h2, if_neg h1]
          exact ih bs

theorem listLeB_trans {x y z : List Char} (h1 : listLeB x y = true)
    (h2 : listLeB y z = true) : listLeB x z = true := by
  induction x generalizing y z with
  | nil => rfl
  | cons a as ih =>
    cases y with
    | nil => simp [listLeB] at h1
    | cons b bs =>
      cases z with
      | nil => simp [listLeB] at h2
      | cons c cs =>
        simp only [listLeB] at h1 h2 ⊢
        split_ifs at h1 h2 ⊢ <;>
          first
          | rfl
          | omega
          | exact ih h1 h2
          | simp at h1
          | simp at h2

theorem mem_pySorted {x : String} {l : List String} : x ∈ pySorted l ↔ x ∈ l :=
  (List.perm_insertionSort _ l).mem_iff

theorem nodup_pySorted {l : List String} (h : l.Nodup) : (pySorted l).Nodup :=
  (List.perm_insertionSort _ l).symm.nodup h

theorem sorted_pySorted (l : List String) : List.Sorted (· ≤ ·) (pySorted l) := by
  haveI hT : IsTotal String (fun a b : String => strLeB a b = true) :=
    ⟨fun a b => listLeB_total a.data b.data⟩
  haveI hR : IsTrans String (fun a b : String => strLeB a b = true) :=
    ⟨fun a b c h1 h2 => listLeB_trans h1 h2⟩
  have hs := List.sorted_insertionSort (fun a b : String => strLeB a b = true) l
  exact hs.imp (fun h => strLeB_le h)

/-- Every email surviving the validation filter is lowercase, short
enough, outside the excluded domains and not fake-looking. -/
theorem validateEmail_props {m e : String} (h : validateEmail m = some e) :
    pyLower e = e ∧ e.length ≤ 100
      ∧ (pySplit e "@").getD 1 "" ∉ EXCLUDED_EMAIL_DOMAINS
      ∧ isFakeEmail e = false := by
  simp only [validateEmail] at h
  split at h
  · cases h
  · next domain hdom =>
    split_ifs at h with hexc hfake hlen
    rw [Option.some.injEq] at h
    subst h
    refine ⟨pyLower_of_pyLower_sub (fun c hc => mem_pyStrip hc), by omega, ?_, ?_⟩
    · rw [List.getD_eq_getElem?_getD, ← List.get?_eq_getElem?, hdom]
      intro hmem
      apply hexc
      rw [List.contains_eq_any_beq, List.any_eq_true]
      exact ⟨domain, hmem, by simp⟩
    · simpa using hfake

/-- C7: for all input text, every email returned by extract_emails is
lowercase and at most 100 characters, its domain (the segment after
the at sign) is not in the exclusion set, it matches none of the
fake-email patterns, and the returned list has no duplicates and is
sorted lexicographically. -/
theorem C7_extract_emails_clean (text : String) :
    (∀ e ∈ extract_emails text,
      pyLower e = e ∧ e.length ≤ 100
        ∧ (pySplit e "@").getD 1 "" ∉ EXCLUDED_EMAIL_DOMAINS
        ∧ isFakeEmail e = false)
    ∧ (extract_emails text).Nodup
    ∧ List.Sorted (· ≤ ·) (extract_emails text) := by
  cases ht : text.data.isEmpty with
  | true =>
    simp only [extract_emails, ht, if_pos]
    exact ⟨fun e he => absurd he (List.not_mem_nil e), List.nodup_nil, List.sorted_nil⟩
  | false =>
    have hform : extract_emails text
        = pySorted (((emailFindAll text).filterMap validateEmail).dedup) := by
      simp [extract_emails, ht]
    refine ⟨?_, ?_, ?_⟩
    · intro e he
      rw [hform, mem_pySorted, List.mem_dedup, List.mem_filterMap] at he
      rcases he with ⟨m, _, hm⟩
      exact validateEmail_props hm
    · rw [hform]
      exact nodup_pySorted (List.nodup_dedup _)
    · rw [hform]
      exact sorted_pySorted _

theorem C7_witness :
    (pyLower "support@acme.com" = "support@acme.com"
      ∧ ("support@acme.com").length ≤ 100
      ∧ (pySplit "support@acme.com" "@").getD 1 "" ∉ EXCLUDED_EMAIL_DOMAINS
      ∧ isFakeEmail "support@acme.com" = false)
    ∧ (extract_emails textC3).Nodup
    ∧ List.Sorted (· ≤ ·) (extract_emails textC3) :=
  ⟨(C7_extract_emails_clean textC3).1 "support@acme.com" (by decide),
   (C7_extract_emails_clean textC3).2.1, (C7_extract_emails_clean textC3).2.2⟩

/-! Lemmas for contact persistence. -/

theorem find_contact_unique {db : List ContactRow} {row : ContactRow} {cid : Nat}
    {em : String} (hu : uniquePerKey db) (hm : row ∈ db) (h1 : row.company_id = cid)
    (h2 : row.email = em) :
    db.find? (fun r => r.company_id == cid && r.email == em) = some row := by
  induction db with
  | nil => cases hm
  | cons a t ih =>
    by_cases ha : (a.company_id == cid && a.email == em) = true
    · rw [@List.find?_cons_of_pos _ (fun r => r.company_id == cid && r.email == em) a t ha]
      rcases List.mem_cons.1 hm with rfl | hmt
      · rfl
      · exfalso
        have hpa := (List.pairwise_cons.1 hu).1 row hmt
        have h3 := ha
        rw [Bool.and_eq_true, beq_iff_eq, beq_iff_eq] at h3
        exact hpa ⟨h3.1.trans h1.symm, h3.2.trans h2.symm⟩
    · rcases List.mem_cons.1 hm with rfl | hmt
      · exfalso
        apply ha
        rw [Bool.and_eq_true, beq_iff_eq, beq_iff_eq]
        exact ⟨h1, h2⟩
      · rw [@List.find?_cons_of_neg _ (fun r => r.company_id == cid && r.email == em) a t
          (by simpa using ha)]
        exact ih (List.pairwise_cons.1 hu).2 hmt

theorem save_contact_of_exists {db : List ContactRow} {cid : Nat} {cd : ContactInfo}
    (h : ∃ row ∈ db, row.company_id = cid ∧ row.email = cd.email) :
    (save_contact db cid cd).2 = db := by
  rcases h with ⟨row, hm, h1, h2⟩
  simp only [save_contact]
  split
  · rfl
  · cases hf : db.find? (fun r => r.company_id == cid && r.email == cd.email) with
    | some r => simp [hf]
    | none =>
      exfalso
      have := List.find?_eq_none.1 hf row hm
      apply this
      rw [Bool.and_eq_true, beq_iff_eq, beq_iff_eq]
      exact ⟨h1, h2⟩

theorem save_contact_mem_mono {db : List ContactRow} {cid : Nat} {cd : ContactInfo}
    {row : ContactRow} (h : row ∈ db) : row ∈ (save_contact db cid cd).2 := by
  simp only [save_contact]
  split
  · exact h
  · split
    · exact h
    · exact List.mem_append_left _ h

theorem save_contact_creates (db : List ContactRow) (cid : Nat) {cd : ContactInfo}
    (h : cd.email.data.isEmpty = false) :
    ∃ row ∈ (save_contact db cid cd).2, row.company_id = cid ∧ row.email = cd.email := by
  simp only [save_contact, h, Bool.false_eq_true, if_false]
  cases hf : db.find? (fun r => r.company_id == cid && r.email == cd.email) with
  | some r =>
    have hp := List.find?_some hf
    rw [Bool.and_eq_true, beq_iff_eq, beq_iff_eq] at hp
    exact ⟨r, List.mem_of_find?_eq_some hf, hp⟩
  | none =>
    refine ⟨_, List.mem_append_right _ (List.mem_singleton_self _), rfl, rfl⟩

theorem save_contacts_mem_mono {cid : Nat} (cs : List ContactInfo) :
    ∀ {db : List ContactRow} {row : ContactRow}, row ∈ db →
      row ∈ save_contacts cid cs db := by
  induction cs with
  | nil => intro db row h; exact h
  | cons c rest ih =>
    intro db row h
    exact ih (save_contact_mem_mono h)

theorem save_contacts_exists {cid : Nat} (cs : List ContactInfo) :
    ∀ {db : List ContactRow} {c : ContactInfo}, c ∈ cs → c.email.data.isEmpty = false →
      ∃ row ∈ save_contacts cid cs db, row.company_id = cid ∧ row.email = c.email := by
  induction cs with
  | nil => intro db c h; cases h
  | cons d rest ih =>
    intro db c hmem hne
    rcases List.mem_cons.1 hmem with rfl | hmt
    · rcases save_contact_creates db cid hne with ⟨row, hm, hp⟩
      exact ⟨row, save_contacts_mem_mono rest hm, hp⟩
    · exact ih hmt hne

theorem save_contacts_noop {cid : Nat} (cs : List ContactInfo) :
    ∀ {db : List ContactRow},
      (∀ c ∈ cs, c.email.data.isEmpty = true
        ∨ ∃ row ∈ db, row.company_id = cid ∧ row.email = c.email) →
      save_contacts cid cs db = db := by
  induction cs with
  | nil => intro db _; rfl
  | cons c rest ih =>
    intro db h
    have hc := h c (List.mem_cons_self c rest)
    have hsnd : (save_contact db cid c).2 = db := by
      rcases hc with hc | hc
      · simp only [save_contact, hc, if_pos]
      · exact save_contact_of_exists hc
    show save_contacts cid rest (save_contact db cid c).2 = db
    rw [hsnd]
    exact ih (fun d hd => h d (List.mem_cons_of_mem c hd))

theorem save_contact_unique {db : List ContactRow} {cid : Nat} {cd : ContactInfo}
    (hu : uniquePerKey db) : uniquePerKey (save_contact db cid cd).2 := by
  simp only [save_contact]
  split
  · exact hu
  · cases hf : db.find? (fun r => r.company_id == cid && r.email == cd.email) with
    | some r => exact hu
    | none =>
      rw [uniquePerKey, List.pairwise_append]
      refine ⟨hu, List.pairwise_singleton _ _, ?_⟩
      intro a ha b hb
      rw [List.mem_singleton] at hb
      subst hb
      intro ⟨h1, h2⟩
      have := List.find?_eq_none.1 hf a ha
      apply this
      rw [Bool.and_eq_true, beq_iff_eq, beq_iff_eq]
      exact ⟨h1, h2⟩

theorem save_contacts_unique {cid : Nat} (cs : List ContactInfo) :
    ∀ {db : List ContactRow}, uniquePerKey db → uniquePerKey (save_contacts cid cs db) := by
  induction cs with
  | nil => intro db hu; exact hu
  | cons c rest ih =>
    intro db hu
    exact ih (save_contact_unique hu)

/-- C9: _save_contact inserts a row only when no contact with the same
(company_id, email) exists, returning the id of the existing row
otherwise; therefore the contact-saving loop is idempotent and
preserves uniqueness of the (company_id, email) key, so a second
enrichment run against the same result creates no duplicate rows. -/
theorem C9_contact_idempotence :
    (∀ (db : List ContactRow) (cid : Nat) (cd : ContactInfo) (row : ContactRow),
      uniquePerKey db → row ∈ db → row.company_id = cid → row.email = cd.email →
      cd.email.data.isEmpty = false → save_contact db cid cd = (some row.id, db))
    ∧ (∀ (db : List ContactRow) (cid : Nat) (cd : ContactInfo),
      (∃ row ∈ db, row.company_id = cid ∧ row.email = cd.email) →
      (save_contact db cid cd).2 = db)
    ∧ (∀ (db : List ContactRow) (cid : Nat) (cs : List ContactInfo),
      save_contacts cid cs (save_contacts cid cs db) = save_contacts cid cs db)
    ∧ (∀ (db : List ContactRow) (cid : Nat) (cs : List ContactInfo),
      uniquePerKey db → uniquePerKey (save_contacts cid cs db)) := by
  refine ⟨?_, ?_, ?_, ?_⟩
  · intro db cid cd row hu hm h1 h2 hne
    simp only [save_contact, hne, Bool.false_eq_true, if_false]
    rw [find_contact_unique hu hm h1 h2]
  · intro db cid cd h
    exact save_contact_of_exists h
  · intro db cid cs
    apply save_contacts_noop
    intro c hc
    cases hne : c.email.data.isEmpty with
    | true => exact Or.inl rfl
    | false => exact Or.inr (save_contacts_exists cs hc hne)
  · intro db cid cs hu
    exact save_contacts_unique cs hu

theorem C9_witness : save_contact [demoRow] 1 demoContact = (some 7, [demoRow]) :=
  C9_contact_idempotence.1 [demoRow] 1 demoContact demoRow
    (List.pairwise_singleton _ demoRow) (by decide) (by decide) (by decide) (by decide)

end InternTrack
